import Mathlib

/-!
# Quack code generator: `ASTNode.cxx`

A shallow embedding of the `gen_rvalue` methods of `src/ASTNode.cxx` (lines 203-336)
together with the factory `Call::binop`, and of the `json` methods (lines 19-200),
followed by theorems about the emitted instruction stream, the register counter, the
register type tags and the indentation of the tree dump.

Conventions of the embedding

* A `CodegenContext` is passed in and returned (the C++ code mutates it through a
  reference).
* `int` values (register type tags, literal payloads) are `Int`; register ordinals
  are `Nat`.
* The local `static_for_return` of `Call::gen_rvalue` has no initialiser.  The
  embedding keeps it as an `Option Int` (`none` = no branch assigned it) and reads an
  unassigned local through the parameter `uninit`, which stands for the indeterminate
  value found in the variable.  Theorems hold for every `uninit`.
-/

namespace Quack

/-! ## Data model -/

/-- The node `AST::Ident`: an identifier carrying its text. -/
structure Ident where
  text_ : String
deriving DecidableEq

/-- The accessor `Ident::get_text`. -/
def Ident.get_text (i : Ident) : String := i.text_

/-- The node variants whose `gen_rvalue` is defined in `ASTNode.cxx`.  Children that
`gen_rvalue` never visits (`loc_`, `lexpr_`, `static_type_`, `classes_`) are kept as
data.  `Call` holds the elements of its `Actuals` and `Program` the elements of its
statement `Block`. -/
inductive ASTNode where
  | IntConst (value_ : Int)
  | StrConst (value_ : String)
  | Load (loc_ : Ident)
  | Assign (lexpr_ : Ident) (rexpr_ : ASTNode)
  | AssignDeclare (lexpr_ : Ident) (rexpr_ : ASTNode) (static_type_ : Ident)
  | Call (receiver_ : ASTNode) (method_ : Ident) (actuals_ : List ASTNode)
  | Actuals (elements_ : List ASTNode)
  | Block (elements_ : List ASTNode)
  | Program (classes_ : List ASTNode) (statements_ : List ASTNode)

/-- Modelled from the spec: the class `CodegenContext` is declared in a header that is
not among the source files.  Sections 3 and 4.2 of the specification give its state: an
append-only instruction stream, a register counter holding the ordinal of the most
recently allocated register, and a map from register number to type tag
(0 = OBJECT, 1 = INT, 2 = STRING, 3 = BOOLEAN).  The map is an association list whose
first entry for a key is the current one. -/
structure CodegenContext where
  code : List String
  reg : Nat
  types : List (Nat × Int)
deriving DecidableEq

/-- Look a register up in the tag map; a register without an entry reads as OBJECT (0). -/
def tag_lookup : List (Nat × Int) → Nat → Int
  | [], _ => 0
  | (k, t) :: rest, r => if k = r then t else tag_lookup rest r

namespace CodegenContext

/-- Modelled from the spec: `emit(instruction_text)` appends one line to the
instruction stream (section 4.2); the method body is in the missing header. -/
def emit (ctx : CodegenContext) (s : String) : CodegenContext :=
  { ctx with code := ctx.code ++ [s] }

/-- Modelled from the spec: `current_register_number()` is the ordinal of the most
recently allocated register (section 4.2). -/
def get_current_reg_number (ctx : CodegenContext) : Nat := ctx.reg

/-- Modelled from the spec: the name of register number `n`.  The argument loop of
`Call::gen_rvalue` (lines 297-298, 309-310) spells register `i` as `tmp__` followed by
its decimal ordinal; `get_num_reg` of the missing header yields the same name. -/
def get_num_reg (_ctx : CodegenContext) (n : Nat) : String := "tmp__" ++ toString n

/-- Modelled from the spec: `allocate_register()` advances the register counter and
returns the fresh register's name (section 4.2); afterwards the current register
number is the ordinal of the register returned (line 313-314 rely on this). -/
def alloc_reg (ctx : CodegenContext) : String × CodegenContext :=
  (ctx.get_num_reg (ctx.reg + 1), { ctx with reg := ctx.reg + 1 })

/-- Modelled from the spec: `set_register_type(reg, tag)` associates a tag with a
register, overwriting an earlier one (section 4.2). -/
def change_reg_type (ctx : CodegenContext) (r : Nat) (t : Int) : CodegenContext :=
  { ctx with types := (r, t) :: ctx.types }

/-- Modelled from the spec: `get_register_type(reg)`; absence of a recorded tag is
treated as OBJECT (section 4.2). -/
def get_reg_type (ctx : CodegenContext) (r : Nat) : Int := tag_lookup ctx.types r

end CodegenContext

/-! ## `Call::gen_rvalue`, lines 252-316 -/

/-- Lines 252-283: the `if` chain on the receiver register's tag.  The first component
is the value of `args` after the chain (the cast receiver), the second the value of
`static_for_return`, `none` when no branch assigns it. -/
def receiver_dispatch (receiver_type : Int) (method_name : String)
    (start_from_reg : String) : String × Option Int :=
  if receiver_type = 1 then
    ("(obj_Int) " ++ start_from_reg,
      if method_name = "STRING" then some 2
      else if method_name = "EQUALS" then some 3
      else if method_name = "LESS" then some 3
      else if method_name = "PLUS" then some 1
      else none)
  else if receiver_type = 0 then
    ("(obj_Obj) " ++ start_from_reg,
      if method_name = "STRING" then some 2
      else if method_name = "PRINT" then some 0
      else if method_name = "EQUALS" then some 3
      else none)
  else if receiver_type = 2 then
    ("(obj_String) " ++ start_from_reg,
      if method_name = "STRING" then some 2
      else if method_name = "PRINT" then some 2
      else if method_name = "EQUALS" then some 3
      else none)
  else if receiver_type = 3 then
    ("(obj_Boolean) " ++ start_from_reg, none)
  else
    ("", none)

/-- Lines 290-296 and 302-308: the cast appended in front of argument register `i`.
There is no branch for tag 3. -/
def arg_cast (t : Int) : String :=
  if t = 1 then "(obj_Int) "
  else if t = 0 then "(obj_Obj) "
  else if t = 2 then "(obj_String) "
  else ""

/-- Lines 289-311: one iteration of the argument loop. -/
def append_arg (ctx : CodegenContext) (end_ : Nat) (args : String) (i : Nat) : String :=
  if i ≠ end_ then
    args ++ arg_cast (ctx.get_reg_type i) ++ "tmp__" ++ toString i ++ ", "
  else
    args ++ arg_cast (ctx.get_reg_type i) ++ "tmp__" ++ toString i

/-- Line 288: `for (i = start_from; i <= end; i++)`. -/
def args_loop (ctx : CodegenContext) (start_from end_ : Nat) (args : String) : String :=
  (List.range' start_from (end_ + 1 - start_from)).foldl (append_arg ctx end_) args

/-- Lines 243-316: the part of `Call::gen_rvalue` that runs after the receiver and
the arguments have been generated.  `ctx` is the context after `actuals_.gen_rvalue`. -/
def Call_finish (uninit : CodegenContext → Int) (method_name start_from_reg : String)
    (start_from : Nat) (ctx : CodegenContext) : CodegenContext :=
  let end_ := ctx.get_current_reg_number
  let d := receiver_dispatch (ctx.get_reg_type (start_from - 1)) method_name start_from_reg
  let receiver_part := d.1
  let args := if start_from - 1 ≠ end_ then d.1 ++ ", " else d.1
  let args := args_loop ctx start_from end_ args
  let a := ctx.alloc_reg
  let call_reg := a.1
  let ctx := a.2
  let call_reg_num := ctx.get_current_reg_number
  let static_for_return := d.2.getD (uninit ctx)
  let ctx := ctx.change_reg_type call_reg_num static_for_return
  ctx.emit (call_reg ++ "= (obj_Obj) (" ++ receiver_part ++ ")->clazz->" ++ method_name
    ++ "(" ++ args ++ ");")

/-! ## `gen_rvalue` of the node variants, lines 203-328 -/

mutual
/-- The virtual method `gen_rvalue(ctx, target_reg)`. -/
def gen_rvalue (uninit : CodegenContext → Int) :
    ASTNode → CodegenContext → String → CodegenContext
  | .IntConst value_, ctx, target_reg =>
    let cur_reg := ctx.get_current_reg_number
    let ctx := ctx.change_reg_type cur_reg 1
    ctx.emit (target_reg ++ "=int_literal(" ++ toString value_ ++ ");")
  | .StrConst value_, ctx, target_reg =>
    let cur_reg := ctx.get_current_reg_number
    let ctx := ctx.change_reg_type cur_reg 2
    ctx.emit (target_reg ++ "=str_literal(" ++ value_ ++ ");")
  | .Load _, ctx, _ => ctx
  | .Assign _ rexpr_, ctx, target_reg => gen_rvalue uninit rexpr_ ctx target_reg
  | .AssignDeclare _ rexpr_ _, ctx, target_reg => gen_rvalue uninit rexpr_ ctx target_reg
  | .Call receiver_ method_ actuals_, ctx, target_reg =>
    let ctx := gen_rvalue uninit receiver_ ctx target_reg
    let start_from_reg := ctx.get_num_reg ctx.get_current_reg_number
    let start_from := ctx.get_current_reg_number + 1
    let method_name := method_.get_text
    let ctx := Actuals_gen_rvalue uninit actuals_ ctx target_reg
    Call_finish uninit method_name start_from_reg start_from ctx
  | .Actuals elements_, ctx, target_reg => Actuals_gen_rvalue uninit elements_ ctx target_reg
  | .Block elements_, ctx, target_reg => Block_gen_rvalue uninit elements_ ctx target_reg
  | .Program _ statements_, ctx, target_reg =>
    Block_gen_rvalue uninit statements_ ctx target_reg
/-- The loop of `Block::gen_rvalue` (lines 203-211); the third argument is `used_reg`. -/
def Block_gen_rvalue (uninit : CodegenContext → Int) :
    List ASTNode → CodegenContext → String → CodegenContext
  | [], ctx, _ => ctx
  | s :: rest, ctx, used_reg =>
    let ctx := gen_rvalue uninit s ctx used_reg
    let a := ctx.alloc_reg
    Block_gen_rvalue uninit rest a.2 a.1
/-- The loop of `Actuals::gen_rvalue` (lines 229-234); `target_reg` is not used. -/
def Actuals_gen_rvalue (uninit : CodegenContext → Int) :
    List ASTNode → CodegenContext → String → CodegenContext
  | [], ctx, _ => ctx
  | s :: rest, ctx, target_reg =>
    let a := ctx.alloc_reg
    let ctx := gen_rvalue uninit s a.2 a.1
    Actuals_gen_rvalue uninit rest ctx target_reg
end

/-! ## The factory `Call::binop`, lines 331-336 -/

/-- The method `Actuals::append` of the sequence nodes: add one element at the end. -/
def Actuals.append (elements_ : List ASTNode) (x : ASTNode) : List ASTNode :=
  elements_ ++ [x]

/-- The factory `Call::binop(opname, receiver, arg)`. -/
def Call.binop (opname : String) (receiver arg : ASTNode) : ASTNode :=
  let method : Ident := Ident.mk opname
  let actuals : List ASTNode := []
  let actuals := Actuals.append actuals arg
  ASTNode.Call receiver method actuals

/-! ## Vocabulary of the statements -/

/-- What a generation step may do to a context: the counter does not decrease, the
instruction stream only grows at its end, and the tags of registers below `bound` are
kept. -/
def Extends (bound : Nat) (ctx ctx' : CodegenContext) : Prop :=
  ctx.reg ≤ ctx'.reg ∧ (∃ l, ctx'.code = ctx.code ++ l) ∧
    ∀ r, r < bound → ctx'.get_reg_type r = ctx.get_reg_type r

/-! ## Vocabulary of the statements about blocks and passes -/

/-- The value of the local `used_reg` of `Block::gen_rvalue` (lines 204-210) after the
loop has run over `elements_`: the initial `target_reg` for an empty list, afterwards the
name returned by the last `alloc_reg`. -/
def Block_used_reg (uninit : CodegenContext → Int) :
    List ASTNode → CodegenContext → String → String
  | [], _, used_reg => used_reg
  | s :: rest, ctx, used_reg =>
    let ctx := gen_rvalue uninit s ctx used_reg
    let a := ctx.alloc_reg
    Block_used_reg uninit rest a.2 a.1

/-- A literal node: `IntConst` or `StrConst`. -/
def isLiteral : ASTNode → Bool
  | .IntConst _ => true
  | .StrConst _ => true
  | _ => false

/-- The instruction a literal emits for the target `T` (lines 216 and 222). -/
def literal_instruction (T : String) : ASTNode → String
  | .IntConst value_ => T ++ "=int_literal(" ++ toString value_ ++ ");"
  | .StrConst value_ => T ++ "=str_literal(" ++ value_ ++ ");"
  | _ => ""

/-- The instructions claim C13 expects of a block of literals whose first statement
targets register `c`: the `i`-th statement (counting from 0) assigns `tmp__{c+i}`. -/
def block_literal_code : List ASTNode → Nat → List String
  | [], _ => []
  | s :: rest, c => literal_instruction ("tmp__" ++ toString c) s :: block_literal_code rest (c + 1)

mutual
/-- The identifiers returned by the successive `alloc_reg` calls made while
`gen_rvalue` runs, in call order: line 313 for a call, line 208 for a block, line 231
for an argument list. -/
def gen_allocs (uninit : CodegenContext → Int) :
    ASTNode → CodegenContext → String → List String
  | .IntConst _, _, _ => []
  | .StrConst _, _, _ => []
  | .Load _, _, _ => []
  | .Assign _ rexpr_, ctx, target_reg => gen_allocs uninit rexpr_ ctx target_reg
  | .AssignDeclare _ rexpr_ _, ctx, target_reg => gen_allocs uninit rexpr_ ctx target_reg
  | .Call receiver_ _ actuals_, ctx, target_reg =>
    let c1 := gen_rvalue uninit receiver_ ctx target_reg
    let c2 := Actuals_gen_rvalue uninit actuals_ c1 target_reg
    gen_allocs uninit receiver_ ctx target_reg ++ Actuals_allocs uninit actuals_ c1 target_reg
      ++ [c2.alloc_reg.1]
  | .Actuals elements_, ctx, target_reg => Actuals_allocs uninit elements_ ctx target_reg
  | .Block elements_, ctx, target_reg => Block_allocs uninit elements_ ctx target_reg
  | .Program _ statements_, ctx, target_reg => Block_allocs uninit statements_ ctx target_reg
/-- The `alloc_reg` results of the loop of `Block::gen_rvalue`. -/
def Block_allocs (uninit : CodegenContext → Int) :
    List ASTNode → CodegenContext → String → List String
  | [], _, _ => []
  | s :: rest, ctx, used_reg =>
    let c := gen_rvalue uninit s ctx used_reg
    gen_allocs uninit s ctx used_reg ++ [c.alloc_reg.1]
      ++ Block_allocs uninit rest c.alloc_reg.2 c.alloc_reg.1
/-- The `alloc_reg` results of the loop of `Actuals::gen_rvalue`. -/
def Actuals_allocs (uninit : CodegenContext → Int) :
    List ASTNode → CodegenContext → String → List String
  | [], _, _ => []
  | s :: rest, ctx, target_reg =>
    let a := ctx.alloc_reg
    [a.1] ++ gen_allocs uninit s a.2 a.1
      ++ Actuals_allocs uninit rest (gen_rvalue uninit s a.2 a.1) target_reg
end

mutual
/-- The visits of literal and call nodes made while `gen_rvalue` runs, in visit order:
each entry is the `target_reg` the node's `gen_rvalue` received and the current register
number of the context on entry. -/
def gen_visits (uninit : CodegenContext → Int) :
    ASTNode → CodegenContext → String → List (String × Nat)
  | .IntConst _, ctx, target_reg => [(target_reg, ctx.get_current_reg_number)]
  | .StrConst _, ctx, target_reg => [(target_reg, ctx.get_current_reg_number)]
  | .Load _, _, _ => []
  | .Assign _ rexpr_, ctx, target_reg => gen_visits uninit rexpr_ ctx target_reg
  | .AssignDeclare _ rexpr_ _, ctx, target_reg => gen_visits uninit rexpr_ ctx target_reg
  | .Call receiver_ _ actuals_, ctx, target_reg =>
    let c1 := gen_rvalue uninit receiver_ ctx target_reg
    [(target_reg, ctx.get_current_reg_number)] ++ gen_visits uninit receiver_ ctx target_reg
      ++ Actuals_visits uninit actuals_ c1 target_reg
  | .Actuals elements_, ctx, target_reg => Actuals_visits uninit elements_ ctx target_reg
  | .Block elements_, ctx, target_reg => Block_visits uninit elements_ ctx target_reg
  | .Program _ statements_, ctx, target_reg => Block_visits uninit statements_ ctx target_reg
/-- The visits made by the loop of `Block::gen_rvalue`. -/
def Block_visits (uninit : CodegenContext → Int) :
    List ASTNode → CodegenContext → String → List (String × Nat)
  | [], _, _ => []
  | s :: rest, ctx, used_reg =>
    let c := gen_rvalue uninit s ctx used_reg
    gen_visits uninit s ctx used_reg ++ Block_visits uninit rest c.alloc_reg.2 c.alloc_reg.1
/-- The visits made by the loop of `Actuals::gen_rvalue`. -/
def Actuals_visits (uninit : CodegenContext → Int) :
    List ASTNode → CodegenContext → String → List (String × Nat)
  | [], _, _ => []
  | s :: rest, ctx, target_reg =>
    let a := ctx.alloc_reg
    gen_visits uninit s a.2 a.1
      ++ Actuals_visits uninit rest (gen_rvalue uninit s a.2 a.1) target_reg
end

/-! ## Tree dump: `json`, lines 19-200 -/

/-- Modelled from the spec: the class `AST_print_context` is declared in a header that
is not among the source files.  The specification describes it as pure formatting state,
the indentation depth; `json_indent` reads it as the `int` field `indent_`. -/
structure AST_print_context where
  indent_ : Int
deriving DecidableEq

/-- Modelled from the spec: `indent()` goes one level deeper (the comment at line 32:
one level more for children); the method body is in the missing header. -/
def AST_print_context.indent (ctx : AST_print_context) : AST_print_context :=
  ⟨ctx.indent_ + 1⟩

/-- Modelled from the spec: `dedent()` goes one level back; the method body is in the
missing header. -/
def AST_print_context.dedent (ctx : AST_print_context) : AST_print_context :=
  ⟨ctx.indent_ - 1⟩

/-- The node variants whose `json` method is defined in `ASTNode.cxx`.  A child is any
node.  `Other` stands for a node of a class whose `json` is declared in the missing
header (the sequence nodes such as `Block`, `Actuals`, `Classes`). -/
inductive TreeNode where
  | Stub (name_ : String)
  | Program (classes_ statements_ : TreeNode)
  | Formal (var_ type_ : TreeNode)
  | Method (name_ formals_ returns_ statements_ : TreeNode)
  | Assign (lexpr_ rexpr_ : TreeNode)
  | AssignDeclare (lexpr_ rexpr_ static_type_ : TreeNode)
  | Return (expr_ : TreeNode)
  | If (cond_ truepart_ falsepart_ : TreeNode)
  | While (cond_ body_ : TreeNode)
  | Typecase (expr_ cases_ : TreeNode)
  | Type_Alternative (ident_ classname_ block_ : TreeNode)
  | Load (loc_ : TreeNode)
  | Ident (text_ : String)
  | Class (name_ super_ constructor_ methods_ : TreeNode)
  | Call (receiver_ method_ actuals_ : TreeNode)
  | Construct (method_ actuals_ : TreeNode)
  | IntConst (value_ : Int)
  | StrConst (value_ : String)
  | BinOp (opsym : String) (left_ right_ : TreeNode)
  | Not (left_ : TreeNode)
  | Dot (left_ right_ : TreeNode)
  | Other (key : Nat)

/-- The function `ASTNode::json_indent` (lines 19-26); the result is the stream. -/
def json_indent (out : String) (ctx : AST_print_context) : String :=
  let out := if ctx.indent_ > 0 then out ++ "\n" else out
  out ++ String.join (List.replicate ctx.indent_.toNat "    ")

/-- The function `ASTNode::json_head` (lines 29-34). -/
def json_head (node_kind : String) (out : String) (ctx : AST_print_context) :
    String × AST_print_context :=
  let out := json_indent out ctx
  let out := out ++ "\x7b \"kind\" : \"" ++ node_kind ++ "\","
  (out, ctx.indent)

/-- The function `ASTNode::json_close` (lines 36-40). -/
def json_close (out : String) (ctx : AST_print_context) : String × AST_print_context :=
  (out ++ "\x7d", ctx.dedent)

/-- The function `ASTNode::json_child` (lines 42-47); `child` is the `json` method of the
child node. -/
def json_child (field : String)
    (child : String → AST_print_context → String × AST_print_context)
    (out : String) (ctx : AST_print_context) (sep : Char) : String × AST_print_context :=
  let out := json_indent out ctx
  let out := out ++ "\"" ++ field ++ "\" : "
  let r := child out ctx
  (r.1 ++ sep.toString, r.2)

/-- The virtual method `json(out, ctx)` (lines 49-200).  `sep0` is the default value of
the parameter `sep` of `json_child`, declared in the missing header.  `other key d` is
what a node whose `json` is in the missing header writes at depth `d`, and the depth it
leaves. -/
def json (sep0 : Char) (other : Nat → Int → String × Int) :
    TreeNode → String → AST_print_context → String × AST_print_context
  | .Stub name_, out, ctx =>
    let s := json_head "Stub" out ctx
    let out := json_indent s.1 s.2
    let out := out ++ "\"rule\": \"" ++ name_ ++ "\""
    json_close out s.2
  | .Program classes_ statements_, out, ctx =>
    let s := json_head "Program" out ctx
    let s := json_child "classes_" (json sep0 other classes_) s.1 s.2 sep0
    let s := json_child "statements_" (json sep0 other statements_) s.1 s.2 ' '
    json_close s.1 s.2
  | .Formal var_ type_, out, ctx =>
    let s := json_head "Formal" out ctx
    let s := json_child "var_" (json sep0 other var_) s.1 s.2 sep0
    let s := json_child "type_" (json sep0 other type_) s.1 s.2 ' '
    json_close s.1 s.2
  | .Method name_ formals_ returns_ statements_, out, ctx =>
    let s := json_head "Method" out ctx
    let s := json_child "name_" (json sep0 other name_) s.1 s.2 sep0
    let s := json_child "formals_" (json sep0 other formals_) s.1 s.2 sep0
    let s := json_child "returns_" (json sep0 other returns_) s.1 s.2 sep0
    let s := json_child "statements_" (json sep0 other statements_) s.1 s.2 ' '
    json_close s.1 s.2
  | .Assign lexpr_ rexpr_, out, ctx =>
    let s := json_head "Assign" out ctx
    let s := json_child "lexpr_" (json sep0 other lexpr_) s.1 s.2 sep0
    let s := json_child "rexpr_" (json sep0 other rexpr_) s.1 s.2 ' '
    json_close s.1 s.2
  | .AssignDeclare lexpr_ rexpr_ static_type_, out, ctx =>
    let s := json_head "Assign" out ctx
    let s := json_child "lexpr_" (json sep0 other lexpr_) s.1 s.2 sep0
    let s := json_child "rexpr_" (json sep0 other rexpr_) s.1 s.2 sep0
    let s := json_child "static_type_" (json sep0 other static_type_) s.1 s.2 ' '
    json_close s.1 s.2
  | .Return expr_, out, ctx =>
    let s := json_head "Return" out ctx
    let s := json_child "expr_" (json sep0 other expr_) s.1 s.2 ' '
    json_close s.1 s.2
  | .If cond_ truepart_ falsepart_, out, ctx =>
    let s := json_head "If" out ctx
    let s := json_child "cond_" (json sep0 other cond_) s.1 s.2 sep0
    let s := json_child "truepart_" (json sep0 other truepart_) s.1 s.2 sep0
    let s := json_child "falsepart_" (json sep0 other falsepart_) s.1 s.2 ' '
    json_close s.1 s.2
  | .While cond_ body_, out, ctx =>
    let s := json_head "While" out ctx
    let s := json_child "cond_" (json sep0 other cond_) s.1 s.2 sep0
    let s := json_child "body_" (json sep0 other body_) s.1 s.2 ' '
    json_close s.1 s.2
  | .Typecase expr_ cases_, out, ctx =>
    let s := json_head "Typecase" out ctx
    let s := json_child "expr_" (json sep0 other expr_) s.1 s.2 sep0
    let s := json_child "cases_" (json sep0 other cases_) s.1 s.2 ' '
    json_close s.1 s.2
  | .Type_Alternative ident_ classname_ block_, out, ctx =>
    let s := json_head "Type_Alternative" out ctx
    let s := json_child "ident_" (json sep0 other ident_) s.1 s.2 sep0
    let s := json_child "classname_" (json sep0 other classname_) s.1 s.2 sep0
    let s := json_child "block_" (json sep0 other block_) s.1 s.2 ' '
    json_close s.1 s.2
  | .Load loc_, out, ctx =>
    let s := json_head "Load" out ctx
    let s := json_child "loc_" (json sep0 other loc_) s.1 s.2 ' '
    json_close s.1 s.2
  | .Ident text_, out, ctx =>
    let s := json_head "Ident" out ctx
    let out := s.1 ++ "\"text_\" : \"" ++ text_ ++ "\""
    json_close out s.2
  | .Class name_ super_ constructor_ methods_, out, ctx =>
    let s := json_head "Class" out ctx
    let s := json_child "name_" (json sep0 other name_) s.1 s.2 sep0
    let s := json_child "super_" (json sep0 other super_) s.1 s.2 sep0
    let s := json_child "constructor_" (json sep0 other constructor_) s.1 s.2 sep0
    let s := json_child "methods_" (json sep0 other methods_) s.1 s.2 ' '
    json_close s.1 s.2
  | .Call receiver_ method_ actuals_, out, ctx =>
    let s := json_head "Call" out ctx
    let s := json_child "obj_" (json sep0 other receiver_) s.1 s.2 sep0
    let s := json_child "method_" (json sep0 other method_) s.1 s.2 sep0
    let s := json_child "actuals_" (json sep0 other actuals_) s.1 s.2 ' '
    json_close s.1 s.2
  | .Construct method_ actuals_, out, ctx =>
    let s := json_head "Construct" out ctx
    let s := json_child "method_" (json sep0 other method_) s.1 s.2 sep0
    let s := json_child "actuals_" (json sep0 other actuals_) s.1 s.2 ' '
    json_close s.1 s.2
  | .IntConst value_, out, ctx =>
    let s := json_head "IntConst" out ctx
    let out := s.1 ++ "\"value_\" : " ++ toString value_
    json_close out s.2
  | .StrConst value_, out, ctx =>
    let s := json_head "StrConst" out ctx
    let out := s.1 ++ "\"value_\" : \"" ++ value_ ++ "\""
    json_close out s.2
  | .BinOp opsym left_ right_, out, ctx =>
    let s := json_head opsym out ctx
    let s := json_child "left_" (json sep0 other left_) s.1 s.2 sep0
    let s := json_child "right_" (json sep0 other right_) s.1 s.2 ' '
    json_close s.1 s.2
  | .Not left_, out, ctx =>
    let s := json_head "Not" out ctx
    let s := json_child "left_" (json sep0 other left_) s.1 s.2 ' '
    json_close s.1 s.2
  | .Dot left_ right_, out, ctx =>
    let s := json_head "Dot" out ctx
    let s := json_child "left_" (json sep0 other left_) s.1 s.2 sep0
    let s := json_child "right_" (json sep0 other right_) s.1 s.2 ' '
    json_close s.1 s.2
  | .Other key, out, ctx =>
    let r := other key ctx.indent_
    (out ++ r.1, ⟨r.2⟩)

/-! ### The dump with explicit depth -/

/-- The text written by `json_indent` at depth `d`: a line break when `d > 0`, then `d`
times four spaces. -/
def indent_text (d : Int) : String :=
  (if d > 0 then "\n" else "") ++ String.join (List.replicate d.toNat "    ")

/-- A node's head written at depth `d`. -/
def head_text (d : Int) (node_kind : String) : String :=
  indent_text d ++ "\x7b \"kind\" : \"" ++ node_kind ++ "\","

/-- A child field written at depth `d`: the indentation, the field name, the child's
text and the separator. -/
def field_text (d : Int) (field child_text : String) (sep : Char) : String :=
  indent_text d ++ "\"" ++ field ++ "\" : " ++ child_text ++ sep.toString

/-- The dump as the specification words it, with the depth passed down explicitly: a
node at depth `d` writes its head at depth `d`, each child field at depth `d + 1` (the
child itself being dumped at depth `d + 1`), and the closing brace. -/
def dump_at (sep0 : Char) (other : Nat → Int → String × Int) : TreeNode → Int → String
  | .Stub name_, d =>
    head_text d "Stub" ++ indent_text (d + 1) ++ "\"rule\": \"" ++ name_ ++ "\"" ++ "\x7d"
  | .Program classes_ statements_, d =>
    head_text d "Program"
      ++ field_text (d + 1) "classes_" (dump_at sep0 other classes_ (d + 1)) sep0
      ++ field_text (d + 1) "statements_" (dump_at sep0 other statements_ (d + 1)) ' '
      ++ "\x7d"
  | .Formal var_ type_, d =>
    head_text d "Formal"
      ++ field_text (d + 1) "var_" (dump_at sep0 other var_ (d + 1)) sep0
      ++ field_text (d + 1) "type_" (dump_at sep0 other type_ (d + 1)) ' '
      ++ "\x7d"
  | .Method name_ formals_ returns_ statements_, d =>
    head_text d "Method"
      ++ field_text (d + 1) "name_" (dump_at sep0 other name_ (d + 1)) sep0
      ++ field_text (d + 1) "formals_" (dump_at sep0 other formals_ (d + 1)) sep0
      ++ field_text (d + 1) "returns_" (dump_at sep0 other returns_ (d + 1)) sep0
      ++ field_text (d + 1) "statements_" (dump_at sep0 other statements_ (d + 1)) ' '
      ++ "\x7d"
  | .Assign lexpr_ rexpr_, d =>
    head_text d "Assign"
      ++ field_text (d + 1) "lexpr_" (dump_at sep0 other lexpr_ (d + 1)) sep0
      ++ field_text (d + 1) "rexpr_" (dump_at sep0 other rexpr_ (d + 1)) ' '
      ++ "\x7d"
  | .AssignDeclare lexpr_ rexpr_ static_type_, d =>
    head_text d "Assign"
      ++ field_text (d + 1) "lexpr_" (dump_at sep0 other lexpr_ (d + 1)) sep0
      ++ field_text (d + 1) "rexpr_" (dump_at sep0 other rexpr_ (d + 1)) sep0
      ++ field_text (d + 1) "static_type_" (dump_at sep0 other static_type_ (d + 1)) ' '
      ++ "\x7d"
  | .Return expr_, d =>
    head_text d "Return"
      ++ field_text (d + 1) "expr_" (dump_at sep0 other expr_ (d + 1)) ' '
      ++ "\x7d"
  | .If cond_ truepart_ falsepart_, d =>
    head_text d "If"
      ++ field_text (d + 1) "cond_" (dump_at sep0 other cond_ (d + 1)) sep0
      ++ field_text (d + 1) "truepart_" (dump_at sep0 other truepart_ (d + 1)) sep0
      ++ field_text (d + 1) "falsepart_" (dump_at sep0 other falsepart_ (d + 1)) ' '
      ++ "\x7d"
  | .While cond_ body_, d =>
    head_text d "While"
      ++ field_text (d + 1) "cond_" (dump_at sep0 other cond_ (d + 1)) sep0
      ++ field_text (d + 1) "body_" (dump_at sep0 other body_ (d + 1)) ' '
      ++ "\x7d"
  | .Typecase expr_ cases_, d =>
    head_text d "Typecase"
      ++ field_text (d + 1) "expr_" (dump_at sep0 other expr_ (d + 1)) sep0
      ++ field_text (d + 1) "cases_" (dump_at sep0 other cases_ (d + 1)) ' '
      ++ "\x7d"
  | .Type_Alternative ident_ classname_ block_, d =>
    head_text d "Type_Alternative"
      ++ field_text (d + 1) "ident_" (dump_at sep0 other ident_ (d + 1)) sep0
      ++ field_text (d + 1) "classname_" (dump_at sep0 other classname_ (d + 1)) sep0
      ++ field_text (d + 1) "block_" (dump_at sep0 other block_ (d + 1)) ' '
      ++ "\x7d"
  | .Load loc_, d =>
    head_text d "Load"
      ++ field_text (d + 1) "loc_" (dump_at sep0 other loc_ (d + 1)) ' '
      ++ "\x7d"
  | .Ident text_, d =>
    head_text d "Ident" ++ "\"text_\" : \"" ++ text_ ++ "\"" ++ "\x7d"
  | .Class name_ super_ constructor_ methods_, d =>
    head_text d "Class"
      ++ field_text (d + 1) "name_" (dump_at sep0 other name_ (d + 1)) sep0
      ++ field_text (d + 1) "super_" (dump_at sep0 other super_ (d + 1)) sep0
      ++ field_text (d + 1) "constructor_" (dump_at sep0 other constructor_ (d + 1)) sep0
      ++ field_text (d + 1) "methods_" (dump_at sep0 other methods_ (d + 1)) ' '
      ++ "\x7d"
  | .Call receiver_ method_ actuals_, d =>
    head_text d "Call"
      ++ field_text (d + 1) "obj_" (dump_at sep0 other receiver_ (d + 1)) sep0
      ++ field_text (d + 1) "method_" (dump_at sep0 other method_ (d + 1)) sep0
      ++ field_text (d + 1) "actuals_" (dump_at sep0 other actuals_ (d + 1)) ' '
      ++ "\x7d"
  | .Construct method_ actuals_, d =>
    head_text d "Construct"
      ++ field_text (d + 1) "method_" (dump_at sep0 other method_ (d + 1)) sep0
      ++ field_text (d + 1) "actuals_" (dump_at sep0 other actuals_ (d + 1)) ' '
      ++ "\x7d"
  | .IntConst value_, d =>
    head_text d "IntConst" ++ "\"value_\" : " ++ toString value_ ++ "\x7d"
  | .StrConst value_, d =>
    head_text d "StrConst" ++ "\"value_\" : \"" ++ value_ ++ "\"" ++ "\x7d"
  | .BinOp opsym left_ right_, d =>
    head_text d opsym
      ++ field_text (d + 1) "left_" (dump_at sep0 other left_ (d + 1)) sep0
      ++ field_text (d + 1) "right_" (dump_at sep0 other right_ (d + 1)) ' '
      ++ "\x7d"
  | .Not left_, d =>
    head_text d "Not"
      ++ field_text (d + 1) "left_" (dump_at sep0 other left_ (d + 1)) ' '
      ++ "\x7d"
  | .Dot left_ right_, d =>
    head_text d "Dot"
      ++ field_text (d + 1) "left_" (dump_at sep0 other left_ (d + 1)) sep0
      ++ field_text (d + 1) "right_" (dump_at sep0 other right_ (d + 1)) ' '
      ++ "\x7d"
  | .Other key, d => (other key d).1

/-! ## Vocabulary of the statement about simple arguments -/

@[simp]
theorem emit_reg (ctx : CodegenContext) (s : String) : (ctx.emit s).reg = ctx.reg := rfl
@[simp]
theorem emit_types (ctx : CodegenContext) (s : String) :
    (ctx.emit s).types = ctx.types := rfl
@[simp]
theorem emit_code (ctx : CodegenContext) (s : String) :
    (ctx.emit s).code = ctx.code ++ [s] := rfl
@[simp]
theorem change_reg_type_reg (ctx : CodegenContext) (r : Nat) (t : Int) :
    (ctx.change_reg_type r t).reg = ctx.reg := rfl
@[simp]
theorem change_reg_type_code (ctx : CodegenContext) (r : Nat) (t : Int) :
    (ctx.change_reg_type r t).code = ctx.code := rfl
@[simp]
theorem change_reg_type_types (ctx : CodegenContext) (r : Nat) (t : Int) :
    (ctx.change_reg_type r t).types = (r, t) :: ctx.types := rfl
@[simp]
theorem alloc_reg_reg (ctx : CodegenContext) : ctx.alloc_reg.2.reg = ctx.reg + 1 := rfl
@[simp]
theorem alloc_reg_code (ctx : CodegenContext) : ctx.alloc_reg.2.code = ctx.code := rfl
@[simp]
theorem alloc_reg_types (ctx : CodegenContext) : ctx.alloc_reg.2.types = ctx.types := rfl
theorem alloc_reg_name (ctx : CodegenContext) :
    ctx.alloc_reg.1 = "tmp__" ++ toString (ctx.reg + 1) := rfl

theorem get_reg_type_emit (ctx : CodegenContext) (s : String) (r : Nat) :
    (ctx.emit s).get_reg_type r = ctx.get_reg_type r := rfl

theorem get_reg_type_alloc (ctx : CodegenContext) (r : Nat) :
    ctx.alloc_reg.2.get_reg_type r = ctx.get_reg_type r := rfl

theorem get_reg_type_change_same (ctx : CodegenContext) (r : Nat) (t : Int) :
    (ctx.change_reg_type r t).get_reg_type r = t := by
  simp [CodegenContext.get_reg_type, tag_lookup]

theorem get_reg_type_change_other (ctx : CodegenContext) (r k : Nat) (t : Int) (h : k ≠ r) :
    (ctx.change_reg_type k t).get_reg_type r = ctx.get_reg_type r := by
  simp [CodegenContext.get_reg_type, tag_lookup, h]

theorem Extends.refl (b : Nat) (ctx : CodegenContext) : Extends b ctx ctx :=
  ⟨le_refl _, ⟨[], by simp⟩, fun _ _ => rfl⟩

theorem Extends.trans {b b' : Nat} {c1 c2 c3 : CodegenContext} (h12 : Extends b c1 c2)
    (h23 : Extends b' c2 c3) (hb : b ≤ b') : Extends b c1 c3 := by
  obtain ⟨hr, ⟨l, hl⟩, ht⟩ := h12
  obtain ⟨hr', ⟨l', hl'⟩, ht'⟩ := h23
  refine ⟨le_trans hr hr', ⟨l ++ l', by rw [hl', hl, List.append_assoc]⟩, fun r hlt => ?_⟩
  rw [ht' r (lt_of_lt_of_le hlt hb), ht r hlt]

theorem Call_finish_extends (uninit : CodegenContext → Int) (m s : String) (k : Nat)
    (ctx : CodegenContext) : Extends (ctx.reg + 1) ctx (Call_finish uninit m s k ctx) := by
  refine ⟨by simp [Call_finish], ⟨_, rfl⟩, fun r hr => ?_⟩
  simp only [Call_finish]
  rw [get_reg_type_emit, get_reg_type_change_other _ _ _ _ (by
    simp [CodegenContext.get_current_reg_number]; omega), get_reg_type_alloc]

mutual
theorem gen_rvalue_extends (uninit : CodegenContext → Int) :
    ∀ (n : ASTNode) (ctx : CodegenContext) (t : String),
      Extends ctx.reg ctx (gen_rvalue uninit n ctx t)
  | .IntConst v, ctx, t => by
    refine ⟨by simp [gen_rvalue], ⟨_, rfl⟩, fun r hr => ?_⟩
    simp only [gen_rvalue]
    rw [get_reg_type_emit, get_reg_type_change_other _ _ _ _ (by
      simp [CodegenContext.get_current_reg_number]; omega)]
  | .StrConst v, ctx, t => by
    refine ⟨by simp [gen_rvalue], ⟨_, rfl⟩, fun r hr => ?_⟩
    simp only [gen_rvalue]
    rw [get_reg_type_emit, get_reg_type_change_other _ _ _ _ (by
      simp [CodegenContext.get_current_reg_number]; omega)]
  | .Load _, ctx, _ => by simpa [gen_rvalue] using Extends.refl _ ctx
  | .Assign _ r, ctx, t => by simpa [gen_rvalue] using gen_rvalue_extends uninit r ctx t
  | .AssignDeclare _ r _, ctx, t => by
    simpa [gen_rvalue] using gen_rvalue_extends uninit r ctx t
  | .Call r m a, ctx, t => by
    simp only [gen_rvalue]
    have h1 := gen_rvalue_extends uninit r ctx t
    have h2 := Actuals_extends uninit a (gen_rvalue uninit r ctx t) t
    have h3 := Call_finish_extends uninit m.get_text
      ((gen_rvalue uninit r ctx t).get_num_reg (gen_rvalue uninit r ctx t).get_current_reg_number)
      ((gen_rvalue uninit r ctx t).get_current_reg_number + 1)
      (Actuals_gen_rvalue uninit a (gen_rvalue uninit r ctx t) t)
    exact (h1.trans h2 (by have := h1.1; omega)).trans h3 (by have := h1.1; have := h2.1; omega)
  | .Actuals l, ctx, t => by
    simp only [gen_rvalue]
    have h := Actuals_extends uninit l ctx t
    exact ⟨h.1, h.2.1, fun r hr => h.2.2 r (by omega)⟩
  | .Block l, ctx, t => by simpa [gen_rvalue] using Block_extends uninit l ctx t
  | .Program _ l, ctx, t => by simpa [gen_rvalue] using Block_extends uninit l ctx t
theorem Block_extends (uninit : CodegenContext → Int) :
    ∀ (l : List ASTNode) (ctx : CodegenContext) (t : String),
      Extends ctx.reg ctx (Block_gen_rvalue uninit l ctx t)
  | [], ctx, _ => by simpa [Block_gen_rvalue] using Extends.refl _ ctx
  | s :: rest, ctx, t => by
    simp only [Block_gen_rvalue]
    have h1 := gen_rvalue_extends uninit s ctx t
    have h2 := Block_extends uninit rest (gen_rvalue uninit s ctx t).alloc_reg.2
      (gen_rvalue uninit s ctx t).alloc_reg.1
    have ha : Extends (gen_rvalue uninit s ctx t).reg (gen_rvalue uninit s ctx t)
        (gen_rvalue uninit s ctx t).alloc_reg.2 :=
      ⟨by simp, ⟨[], by simp⟩, fun _ _ => rfl⟩
    exact (h1.trans ha h1.1).trans h2 (by simp; have := h1.1; omega)
theorem Actuals_extends (uninit : CodegenContext → Int) :
    ∀ (l : List ASTNode) (ctx : CodegenContext) (t : String),
      Extends (ctx.reg + 1) ctx (Actuals_gen_rvalue uninit l ctx t)
  | [], ctx, _ => by simpa [Actuals_gen_rvalue] using Extends.refl _ ctx
  | s :: rest, ctx, t => by
    simp only [Actuals_gen_rvalue]
    have ha : Extends (ctx.reg + 1) ctx ctx.alloc_reg.2 :=
      ⟨by simp, ⟨[], by simp⟩, fun _ _ => rfl⟩
    have h1 := gen_rvalue_extends uninit s ctx.alloc_reg.2 ctx.alloc_reg.1
    have h2 := Actuals_extends uninit rest (gen_rvalue uninit s ctx.alloc_reg.2 ctx.alloc_reg.1) t
    exact (ha.trans h1 (by simp)).trans h2 (by have := h1.1; simp at this; omega)
end

/-! ## The shape of a call -/

/-- `Call::gen_rvalue` is the receiver, then the arguments, then `Call_finish`. -/
theorem gen_rvalue_Call (uninit : CodegenContext → Int) (r : ASTNode) (m : Ident)
    (a : List ASTNode) (ctx : CodegenContext) (t : String) :
    gen_rvalue uninit (.Call r m a) ctx t =
      Call_finish uninit m.text_
        ((gen_rvalue uninit r ctx t).get_num_reg (gen_rvalue uninit r ctx t).reg)
        ((gen_rvalue uninit r ctx t).reg + 1)
        (Actuals_gen_rvalue uninit a (gen_rvalue uninit r ctx t) t) := by
  simp only [gen_rvalue]
  rfl

/-- Generating the arguments does not change the tag of the receiver's register. -/
theorem receiver_tag_after_actuals (uninit : CodegenContext → Int) (a : List ASTNode)
    (ctx : CodegenContext) (t : String) :
    (Actuals_gen_rvalue uninit a ctx t).get_reg_type ctx.reg = ctx.get_reg_type ctx.reg :=
  (Actuals_extends uninit a ctx t).2.2 ctx.reg (Nat.lt_succ_self _)

theorem Call_finish_reg (uninit : CodegenContext → Int) (m s : String) (k : Nat)
    (ctx : CodegenContext) : (Call_finish uninit m s k ctx).reg = ctx.reg + 1 := rfl

theorem Call_finish_tag (uninit : CodegenContext → Int) (m s : String) (k : Nat)
    (ctx : CodegenContext) :
    (Call_finish uninit m s k ctx).get_reg_type (ctx.reg + 1) =
      (receiver_dispatch (ctx.get_reg_type (k - 1)) m s).2.getD (uninit ctx.alloc_reg.2) := by
  simp only [Call_finish]
  rw [get_reg_type_emit]
  exact get_reg_type_change_same _ _ _

/-- The tag recorded on the result register of a call: the `static_for_return` chosen
by the receiver register's tag and the method name, or the indeterminate value. -/
theorem Call_result_tag (uninit : CodegenContext → Int) (r : ASTNode) (m : Ident)
    (a : List ASTNode) (ctx : CodegenContext) (t : String) :
    (gen_rvalue uninit (.Call r m a) ctx t).get_reg_type
        (gen_rvalue uninit (.Call r m a) ctx t).reg =
      (receiver_dispatch
          ((gen_rvalue uninit r ctx t).get_reg_type (gen_rvalue uninit r ctx t).reg) m.text_
          ((gen_rvalue uninit r ctx t).get_num_reg (gen_rvalue uninit r ctx t).reg)).2.getD
        (uninit (Actuals_gen_rvalue uninit a (gen_rvalue uninit r ctx t) t).alloc_reg.2) := by
  rw [gen_rvalue_Call, Call_finish_reg, Call_finish_tag, Nat.add_sub_cancel,
    receiver_tag_after_actuals]

theorem Call_finish_code (uninit : CodegenContext → Int) (m s : String) (k : Nat)
    (ctx : CodegenContext) :
    (Call_finish uninit m s k ctx).code = ctx.code ++
      [ctx.get_num_reg (ctx.reg + 1) ++ "= (obj_Obj) ("
        ++ (receiver_dispatch (ctx.get_reg_type (k - 1)) m s).1 ++ ")->clazz->" ++ m ++ "("
        ++ args_loop ctx k ctx.reg
            (if k - 1 ≠ ctx.reg then (receiver_dispatch (ctx.get_reg_type (k - 1)) m s).1 ++ ", "
             else (receiver_dispatch (ctx.get_reg_type (k - 1)) m s).1)
        ++ ");"] := rfl

/-! ## Claims -/

/-- C1 (the code at `1 + (2 + 3)`): the outer call has one argument, the nested call
`2 + 3`.  After the receiver the register counter is 0, after the argument list it is 3
(three registers were allocated for one argument), and the instruction emitted for the
outer call passes four operands to `PLUS`: the receiver `tmp__0` and the registers
`tmp__1`, `tmp__2`, `tmp__3`. -/
theorem C1_nested_call_argument_operands (uninit : CodegenContext → Int) :
    (gen_rvalue uninit (.IntConst 1) ⟨[], 0, []⟩ "tmp__0").reg = 0 ∧
    (Actuals_gen_rvalue uninit [Call.binop "PLUS" (.IntConst 2) (.IntConst 3)]
        (gen_rvalue uninit (.IntConst 1) ⟨[], 0, []⟩ "tmp__0") "tmp__0").reg = 3 ∧
    gen_rvalue uninit
        (Call.binop "PLUS" (.IntConst 1) (Call.binop "PLUS" (.IntConst 2) (.IntConst 3)))
        ⟨[], 0, []⟩ "tmp__0" =
      ⟨["tmp__0=int_literal(1);", "tmp__1=int_literal(2);", "tmp__2=int_literal(3);",
        "tmp__3= (obj_Obj) ((obj_Int) tmp__1)->clazz->PLUS((obj_Int) tmp__1, (obj_Int) tmp__2);",
        "tmp__4= (obj_Obj) ((obj_Int) tmp__0)->clazz->PLUS((obj_Int) tmp__0, (obj_Int) tmp__1, (obj_Int) tmp__2, (obj_Int) tmp__3);"],
       4, [(4, 1), (3, 1), (2, 1), (1, 1), (0, 1)]⟩ := by
  simp [Call.binop, Actuals.append, gen_rvalue, Actuals_gen_rvalue, Call_finish,
    receiver_dispatch, args_loop, append_arg, arg_cast, CodegenContext.get_reg_type, tag_lookup,
    CodegenContext.emit, CodegenContext.change_reg_type, CodegenContext.alloc_reg,
    CodegenContext.get_num_reg, CodegenContext.get_current_reg_number, Ident.get_text,
    List.range']
  decide

/-- C2 (the code at `1 == (2 == 3)`): register 3 holds the value of the argument
`2 == 3` and carries tag BOOLEAN (3), yet it is written into the operand list of the
outer call as `tmp__3` without a cast: the argument loop has no branch for tag 3, while
the receiver chain has one. -/
theorem C2_boolean_argument_without_cast (uninit : CodegenContext → Int) :
    gen_rvalue uninit
        (Call.binop "EQUALS" (.IntConst 1) (Call.binop "EQUALS" (.IntConst 2) (.IntConst 3)))
        ⟨[], 0, []⟩ "tmp__0" =
      ⟨["tmp__0=int_literal(1);", "tmp__1=int_literal(2);", "tmp__2=int_literal(3);",
        "tmp__3= (obj_Obj) ((obj_Int) tmp__1)->clazz->EQUALS((obj_Int) tmp__1, (obj_Int) tmp__2);",
        "tmp__4= (obj_Obj) ((obj_Int) tmp__0)->clazz->EQUALS((obj_Int) tmp__0, (obj_Int) tmp__1, (obj_Int) tmp__2, tmp__3);"],
       4, [(4, 3), (3, 3), (2, 1), (1, 1), (0, 1)]⟩ ∧
    (Actuals_gen_rvalue uninit [Call.binop "EQUALS" (.IntConst 2) (.IntConst 3)]
        (gen_rvalue uninit (.IntConst 1) ⟨[], 0, []⟩ "tmp__0") "tmp__0").get_reg_type 3 = 3 ∧
    arg_cast 3 = "" ∧
    (receiver_dispatch 3 "EQUALS" "tmp__3").1 = "(obj_Boolean) tmp__3" := by
  simp [Call.binop, Actuals.append, gen_rvalue, Actuals_gen_rvalue, Call_finish,
    receiver_dispatch, args_loop, append_arg, arg_cast, CodegenContext.get_reg_type, tag_lookup,
    CodegenContext.emit, CodegenContext.change_reg_type, CodegenContext.alloc_reg,
    CodegenContext.get_num_reg, CodegenContext.get_current_reg_number, Ident.get_text,
    List.range']
  decide

/-- C3: when the receiver's register carries tag INT (1), the tag recorded on the
result register of the call is INT (1) for method `PLUS` and BOOLEAN (3) for methods
`EQUALS` and `LESS`, whatever the arguments are. -/
theorem C3_int_receiver_result_tag (uninit : CodegenContext → Int) (receiver_ : ASTNode)
    (actuals_ : List ASTNode) (ctx : CodegenContext) (target_reg : String)
    (h : (gen_rvalue uninit receiver_ ctx target_reg).get_reg_type
        (gen_rvalue uninit receiver_ ctx target_reg).reg = 1) :
    (gen_rvalue uninit (.Call receiver_ ⟨"PLUS"⟩ actuals_) ctx target_reg).get_reg_type
        (gen_rvalue uninit (.Call receiver_ ⟨"PLUS"⟩ actuals_) ctx target_reg).reg = 1 ∧
    (gen_rvalue uninit (.Call receiver_ ⟨"EQUALS"⟩ actuals_) ctx target_reg).get_reg_type
        (gen_rvalue uninit (.Call receiver_ ⟨"EQUALS"⟩ actuals_) ctx target_reg).reg = 3 ∧
    (gen_rvalue uninit (.Call receiver_ ⟨"LESS"⟩ actuals_) ctx target_reg).get_reg_type
        (gen_rvalue uninit (.Call receiver_ ⟨"LESS"⟩ actuals_) ctx target_reg).reg = 3 := by
  refine ⟨?_, ?_, ?_⟩ <;> rw [Call_result_tag, h] <;> simp [receiver_dispatch]

/-- Witness of C3 at the receiver `3` with the argument `4` in a context without
instructions. -/
theorem C3_int_receiver_result_tag_witness :
    (gen_rvalue (fun _ => 0) (.Call (.IntConst 3) ⟨"PLUS"⟩ [.IntConst 4]) ⟨[], 0, []⟩
        "tmp__0").get_reg_type 2 = 1 ∧
    (gen_rvalue (fun _ => 0) (.Call (.IntConst 3) ⟨"EQUALS"⟩ [.IntConst 4]) ⟨[], 0, []⟩
        "tmp__0").get_reg_type 2 = 3 ∧
    (gen_rvalue (fun _ => 0) (.Call (.IntConst 3) ⟨"LESS"⟩ [.IntConst 4]) ⟨[], 0, []⟩
        "tmp__0").get_reg_type 2 = 3 :=
  C3_int_receiver_result_tag (fun _ => 0) (.IntConst 3) [.IntConst 4] ⟨[], 0, []⟩ "tmp__0"
    (by decide)

/-- C4 (the code at `(1 == 2).STRING()`): the receiver's register 2 carries tag
BOOLEAN (3); no branch assigns `static_for_return` for that tag, so the tag recorded on
the result register 3 is the indeterminate value `v` of the variable, not STRING. -/
theorem C4_boolean_receiver_STRING (v : Int) :
    (gen_rvalue (fun _ => v) (Call.binop "EQUALS" (.IntConst 1) (.IntConst 2)) ⟨[], 0, []⟩
        "tmp__0").get_reg_type 2 = 3 ∧
    (receiver_dispatch 3 "STRING" "tmp__2").2 = none ∧
    gen_rvalue (fun _ => v)
        (.Call (Call.binop "EQUALS" (.IntConst 1) (.IntConst 2)) ⟨"STRING"⟩ [])
        ⟨[], 0, []⟩ "tmp__0" =
      ⟨["tmp__0=int_literal(1);", "tmp__1=int_literal(2);",
        "tmp__2= (obj_Obj) ((obj_Int) tmp__0)->clazz->EQUALS((obj_Int) tmp__0, (obj_Int) tmp__1);",
        "tmp__3= (obj_Obj) ((obj_Boolean) tmp__2)->clazz->STRING((obj_Boolean) tmp__2);"],
       3, [(3, v), (2, 3), (1, 1), (0, 1)]⟩ ∧
    (gen_rvalue (fun _ => v)
        (.Call (Call.binop "EQUALS" (.IntConst 1) (.IntConst 2)) ⟨"STRING"⟩ [])
        ⟨[], 0, []⟩ "tmp__0").get_reg_type 3 = v := by
  simp [Call.binop, Actuals.append, gen_rvalue, Actuals_gen_rvalue, Call_finish,
    receiver_dispatch, args_loop, append_arg, arg_cast, CodegenContext.get_reg_type, tag_lookup,
    CodegenContext.emit, CodegenContext.change_reg_type, CodegenContext.alloc_reg,
    CodegenContext.get_num_reg, CodegenContext.get_current_reg_number, Ident.get_text,
    List.range']
  decide

/-- C5 (counterexample): for the call `"hi".PRINT()` the receiver's register 0 carries
tag STRING and the tag recorded on the result register 1 is STRING (2), not OBJECT (0). -/
theorem C5_string_receiver_PRINT_counterexample :
    (gen_rvalue (fun _ => 0) (.StrConst "hi") ⟨[], 0, []⟩ "tmp__0").get_reg_type 0 = 2 ∧
    (gen_rvalue (fun _ => 0) (.Call (.StrConst "hi") ⟨"PRINT"⟩ []) ⟨[], 0, []⟩
        "tmp__0").reg = 1 ∧
    (gen_rvalue (fun _ => 0) (.Call (.StrConst "hi") ⟨"PRINT"⟩ []) ⟨[], 0, []⟩
        "tmp__0").get_reg_type 1 = 2 ∧
    (gen_rvalue (fun _ => 0) (.Call (.StrConst "hi") ⟨"PRINT"⟩ []) ⟨[], 0, []⟩
        "tmp__0").get_reg_type 1 ≠ 0 := by
  decide

/-- C5 (amended): for every call of method `PRINT`, the tag recorded on the result
register is OBJECT (0) when the receiver's register carries tag OBJECT, and STRING (2)
when it carries tag STRING. -/
theorem C5_PRINT_result_tag (uninit : CodegenContext → Int) (receiver_ : ASTNode)
    (actuals_ : List ASTNode) (ctx : CodegenContext) (target_reg : String) :
    ((gen_rvalue uninit receiver_ ctx target_reg).get_reg_type
        (gen_rvalue uninit receiver_ ctx target_reg).reg = 0 →
      (gen_rvalue uninit (.Call receiver_ ⟨"PRINT"⟩ actuals_) ctx target_reg).get_reg_type
        (gen_rvalue uninit (.Call receiver_ ⟨"PRINT"⟩ actuals_) ctx target_reg).reg = 0) ∧
    ((gen_rvalue uninit receiver_ ctx target_reg).get_reg_type
        (gen_rvalue uninit receiver_ ctx target_reg).reg = 2 →
      (gen_rvalue uninit (.Call receiver_ ⟨"PRINT"⟩ actuals_) ctx target_reg).get_reg_type
        (gen_rvalue uninit (.Call receiver_ ⟨"PRINT"⟩ actuals_) ctx target_reg).reg = 2) := by
  constructor <;> intro h <;> rw [Call_result_tag, h] <;> simp [receiver_dispatch]

/-- Witness of the amended C5: the receiver `x` (a variable load, whose register is
untagged and reads as OBJECT) gives result tag OBJECT, the receiver `"hi"` gives result
tag STRING. -/
theorem C5_PRINT_result_tag_witness :
    (gen_rvalue (fun _ => 7) (.Call (.Load ⟨"x"⟩) ⟨"PRINT"⟩ []) ⟨[], 0, []⟩
        "tmp__0").get_reg_type 1 = 0 ∧
    (gen_rvalue (fun _ => 7) (.Call (.StrConst "hi") ⟨"PRINT"⟩ []) ⟨[], 0, []⟩
        "tmp__0").get_reg_type 1 = 2 :=
  ⟨(C5_PRINT_result_tag (fun _ => 7) (.Load ⟨"x"⟩) [] ⟨[], 0, []⟩ "tmp__0").1 (by decide),
   (C5_PRINT_result_tag (fun _ => 7) (.StrConst "hi") [] ⟨[], 0, []⟩ "tmp__0").2 (by decide)⟩

/-- The frame of `Call::gen_rvalue`: the result register is allocated after the
receiver and all arguments, the `static_for_return` selected by receiver tag and method
name (or the indeterminate value of that variable) is recorded on it, and one
instruction is appended after those of the receiver and the arguments; its receiver
part is `<cast> <receiver reg>` when the receiver's register carries one of the four
tags. -/
theorem Call_result_register_and_instruction (uninit : CodegenContext → Int)
    (receiver_ : ASTNode) (method_ : Ident) (actuals_ : List ASTNode)
    (ctx : CodegenContext) (target_reg : String) :
    let c1 := gen_rvalue uninit receiver_ ctx target_reg
    let c2 := Actuals_gen_rvalue uninit actuals_ c1 target_reg
    let c3 := gen_rvalue uninit (.Call receiver_ method_ actuals_) ctx target_reg
    let d := receiver_dispatch (c1.get_reg_type c1.reg) method_.text_ (c1.get_num_reg c1.reg)
    (c3.reg = c2.reg + 1 ∧ c1.reg < c3.reg ∧ ∀ r, r ≤ c2.reg → r < c3.reg) ∧
    c3.get_reg_type c3.reg = d.2.getD (uninit c2.alloc_reg.2) ∧
    (∃ l1 l2, c1.code = ctx.code ++ l1 ∧ c2.code = ctx.code ++ l1 ++ l2 ∧
      c3.code = ctx.code ++ l1 ++ l2 ++
        [c3.get_num_reg c3.reg ++ "= (obj_Obj) (" ++ d.1 ++ ")->clazz->" ++ method_.text_
          ++ "(" ++ args_loop c2 (c1.reg + 1) c2.reg
              (if c1.reg ≠ c2.reg then d.1 ++ ", " else d.1) ++ ");"]) ∧
    (∀ m s, (receiver_dispatch 1 m s).1 = "(obj_Int) " ++ s ∧
      (receiver_dispatch 2 m s).1 = "(obj_String) " ++ s ∧
      (receiver_dispatch 3 m s).1 = "(obj_Boolean) " ++ s ∧
      (receiver_dispatch 0 m s).1 = "(obj_Obj) " ++ s) := by
  intro c1 c2 c3 d
  have h12 : c1.reg ≤ c2.reg := (Actuals_extends uninit actuals_ c1 target_reg).1
  have h3 : c3 = Call_finish uninit method_.text_ (c1.get_num_reg c1.reg) (c1.reg + 1) c2 :=
    gen_rvalue_Call uninit receiver_ method_ actuals_ ctx target_reg
  have hreg : c3.reg = c2.reg + 1 := by rw [h3]; rfl
  refine ⟨⟨hreg, by omega, fun r hr => by omega⟩, ?_, ?_, fun m s => ?_⟩
  · exact Call_result_tag uninit receiver_ method_ actuals_ ctx target_reg
  · obtain ⟨l1, hl1⟩ := (gen_rvalue_extends uninit receiver_ ctx target_reg).2.1
    obtain ⟨l2, hl2⟩ := (Actuals_extends uninit actuals_ c1 target_reg).2.1
    refine ⟨l1, l2, hl1, ?_, ?_⟩
    · show c2.code = _
      rw [hl2]
      show c1.code ++ l2 = _
      rw [hl1]
    · have hc := Call_finish_code uninit method_.text_ (c1.get_num_reg c1.reg) (c1.reg + 1) c2
      rw [← h3, Nat.add_sub_cancel, receiver_tag_after_actuals] at hc
      rw [hc, hreg]
      show c2.code ++ _ = _
      rw [hl2]
      show c1.code ++ l2 ++ _ = _
      rw [hl1]
      rfl
  · simp [receiver_dispatch]

/-- C6 (the code at `(1.PRINT()).STRING()`): the receiver `1.PRINT()` leaves the
indeterminate value `v` of `static_for_return` as the tag of its result register
`tmp__1`.  When `v` is none of the four tags, no branch of the chain at lines 252-283
sets `args`, so the instruction appended for the outer call has an empty receiver part
and an empty operand list, `tmp__2= (obj_Obj) ()->clazz->STRING();`, not the form
`(<cast> <receiver reg>)->clazz-><method name>(<operand list>)`; with the argument `2`,
`(1.PRINT()).EQUALS(2)`, it is `tmp__3= (obj_Obj) ()->clazz->EQUALS(, (obj_Int) tmp__2);`. -/
theorem C6_receiver_part_empty (v : Int) (h : v ≠ 0 ∧ v ≠ 1 ∧ v ≠ 2 ∧ v ≠ 3) :
    (gen_rvalue (fun _ => v) (.Call (.IntConst 1) ⟨"PRINT"⟩ []) ⟨[], 0, []⟩
      "tmp__0").get_reg_type 1 = v ∧
    (receiver_dispatch v "STRING" "tmp__1").1 = "" ∧
    (gen_rvalue (fun _ => v) (.Call (.Call (.IntConst 1) ⟨"PRINT"⟩ []) ⟨"STRING"⟩ [])
        ⟨[], 0, []⟩ "tmp__0").code =
      ["tmp__0=int_literal(1);",
       "tmp__1= (obj_Obj) ((obj_Int) tmp__0)->clazz->PRINT((obj_Int) tmp__0);",
       "tmp__2= (obj_Obj) ()->clazz->STRING();"] ∧
    (gen_rvalue (fun _ => v)
        (.Call (.Call (.IntConst 1) ⟨"PRINT"⟩ []) ⟨"EQUALS"⟩ [.IntConst 2])
        ⟨[], 0, []⟩ "tmp__0").code =
      ["tmp__0=int_literal(1);",
       "tmp__1= (obj_Obj) ((obj_Int) tmp__0)->clazz->PRINT((obj_Int) tmp__0);",
       "tmp__2=int_literal(2);",
       "tmp__3= (obj_Obj) ()->clazz->EQUALS(, (obj_Int) tmp__2);"] := by
  obtain ⟨h0, h1, h2, h3⟩ := h
  simp [gen_rvalue, Actuals_gen_rvalue, Call_finish,
    receiver_dispatch, args_loop, append_arg, arg_cast, CodegenContext.get_reg_type, tag_lookup,
    CodegenContext.emit, CodegenContext.change_reg_type, CodegenContext.alloc_reg,
    CodegenContext.get_num_reg, CodegenContext.get_current_reg_number, Ident.get_text,
    List.range', h0, h1, h2, h3]
  decide

/-- Witness of C6 with the indeterminate value 7: the outer call of
`(1.PRINT()).STRING()` is emitted as `tmp__2= (obj_Obj) ()->clazz->STRING();`. -/
theorem C6_receiver_part_empty_witness :
    (gen_rvalue (fun _ => 7) (.Call (.Call (.IntConst 1) ⟨"PRINT"⟩ []) ⟨"STRING"⟩ [])
        ⟨[], 0, []⟩ "tmp__0").code =
      ["tmp__0=int_literal(1);",
       "tmp__1= (obj_Obj) ((obj_Int) tmp__0)->clazz->PRINT((obj_Int) tmp__0);",
       "tmp__2= (obj_Obj) ()->clazz->STRING();"] :=
  (C6_receiver_part_empty 7 (by decide)).2.2.1

/-- C7: `3 + 4`, built by `Call::binop("PLUS", IntConst 3, IntConst 4)` and generated
with target `tmp__c` in a context whose current register number is `c`, appends exactly
the three instructions of the claim in that order, leaves the counter at `c+2` and
records tag INT (1) on the result register `c+2`. -/
theorem C7_three_plus_four (uninit : CodegenContext → Int) (ctx : CodegenContext) :
    (gen_rvalue uninit (Call.binop "PLUS" (.IntConst 3) (.IntConst 4)) ctx
        (ctx.get_num_reg ctx.reg)).code =
      ctx.code ++
        ["tmp__" ++ toString ctx.reg ++ "=int_literal(3);",
         "tmp__" ++ toString (ctx.reg + 1) ++ "=int_literal(4);",
         "tmp__" ++ toString (ctx.reg + 2) ++ "= (obj_Obj) ((obj_Int) tmp__"
           ++ toString ctx.reg ++ ")->clazz->PLUS((obj_Int) tmp__" ++ toString ctx.reg
           ++ ", (obj_Int) tmp__" ++ toString (ctx.reg + 1) ++ ");"] ∧
    (gen_rvalue uninit (Call.binop "PLUS" (.IntConst 3) (.IntConst 4)) ctx
        (ctx.get_num_reg ctx.reg)).reg = ctx.reg + 2 ∧
    (gen_rvalue uninit (Call.binop "PLUS" (.IntConst 3) (.IntConst 4)) ctx
        (ctx.get_num_reg ctx.reg)).get_reg_type (ctx.reg + 2) = 1 := by
  have hc : gen_rvalue uninit (Call.binop "PLUS" (.IntConst 3) (.IntConst 4)) ctx
      (ctx.get_num_reg ctx.reg) =
      Call_finish uninit "PLUS" (ctx.get_num_reg ctx.reg) (ctx.reg + 1)
        ⟨ctx.code ++ ["tmp__" ++ toString ctx.reg ++ "=int_literal(3);",
            "tmp__" ++ toString (ctx.reg + 1) ++ "=int_literal(4);"],
          ctx.reg + 1, (ctx.reg + 1, 1) :: (ctx.reg, 1) :: ctx.types⟩ := by
    simp only [Call.binop, Actuals.append, List.nil_append, gen_rvalue_Call]
    simp only [gen_rvalue, Actuals_gen_rvalue, CodegenContext.emit,
      CodegenContext.change_reg_type, CodegenContext.alloc_reg, CodegenContext.get_num_reg,
      CodegenContext.get_current_reg_number, List.append_assoc, List.singleton_append,
      String.append_assoc]
    rfl
  rw [hc]
  refine ⟨?_, rfl, ?_⟩
  · rw [Call_finish_code]
    simp [CodegenContext.get_reg_type, tag_lookup, receiver_dispatch, args_loop, append_arg,
      arg_cast, CodegenContext.get_num_reg]
    simp only [String.append_assoc]
    rfl
  · refine (Call_finish_tag uninit "PLUS" (ctx.get_num_reg ctx.reg) (ctx.reg + 1)
      ⟨ctx.code ++ ["tmp__" ++ toString ctx.reg ++ "=int_literal(3);",
            "tmp__" ++ toString (ctx.reg + 1) ++ "=int_literal(4);"],
          ctx.reg + 1, (ctx.reg + 1, 1) :: (ctx.reg, 1) :: ctx.types⟩).trans ?_
    simp [CodegenContext.get_reg_type, tag_lookup, receiver_dispatch]

/-- C8: the node built by `Call::binop(op, l, r)` is the call of method `op` on receiver
`l` with the argument list `[r]`, so generating it yields the same context (instruction
stream, register counter, tag map) as generating the hand-built call. -/
theorem C8_binop_is_call (uninit : CodegenContext → Int) (op : String) (l r : ASTNode)
    (ctx : CodegenContext) (target_reg : String) :
    Call.binop op l r = ASTNode.Call l (Ident.mk op) [r] ∧
    gen_rvalue uninit (Call.binop op l r) ctx target_reg =
      gen_rvalue uninit (ASTNode.Call l (Ident.mk op) (Actuals.append [] r)) ctx target_reg ∧
    gen_rvalue uninit (Call.binop op l r) ctx target_reg =
      gen_rvalue uninit (ASTNode.Call l (Ident.mk op) [r]) ctx target_reg :=
  ⟨rfl, rfl, rfl⟩

/-- C10: an integer literal `v` appends exactly the instruction `T=int_literal(v);`
(`v` in decimal) and a string literal `s` exactly `T=str_literal(s);` (`s` verbatim)
after the earlier instructions, and neither changes the register counter. -/
theorem C10_literal_lowering (uninit : CodegenContext → Int) (v : Int) (s : String)
    (ctx : CodegenContext) (T : String) :
    (gen_rvalue uninit (.IntConst v) ctx T).code =
        ctx.code ++ [T ++ "=int_literal(" ++ toString v ++ ");"] ∧
    (gen_rvalue uninit (.IntConst v) ctx T).reg = ctx.reg ∧
    (gen_rvalue uninit (.StrConst s) ctx T).code =
        ctx.code ++ [T ++ "=str_literal(" ++ s ++ ");"] ∧
    (gen_rvalue uninit (.StrConst s) ctx T).reg = ctx.reg ∧
    (gen_rvalue uninit (.IntConst 5) ctx "tmp__0").code =
        ctx.code ++ ["tmp__0=int_literal(5);"] ∧
    (gen_rvalue uninit (.IntConst (-12)) ctx "tmp__0").code =
        ctx.code ++ ["tmp__0=int_literal(-12);"] :=
  ⟨rfl, rfl, rfl, rfl, rfl, rfl⟩

/-! ## Register names are injective -/

theorem digitChar_value (k : Nat) (h : k < 10) : (Nat.digitChar k).toNat - 48 = k := by
  interval_cases k <;> rfl

theorem toDigitsCore_value : ∀ (fuel n : Nat) (ds : List Char), n < fuel →
    (Nat.toDigitsCore 10 fuel n ds).foldl (fun a c => 10 * a + (c.toNat - 48)) 0 =
      ds.foldl (fun a c => 10 * a + (c.toNat - 48)) n := by
  intro fuel
  induction fuel with
  | zero => intro n ds h; omega
  | succ fuel ih =>
    intro n ds h
    simp only [Nat.toDigitsCore]
    split
    · rename_i h0
      have hn : n < 10 := by
        by_contra hc
        have : 1 ≤ n / 10 := (Nat.le_div_iff_mul_le (by decide)).2 (by omega)
        omega
      simp only [List.foldl_cons, Nat.mul_zero, Nat.zero_add]
      rw [digitChar_value _ (Nat.mod_lt _ (by decide)), Nat.mod_eq_of_lt hn]
    · rename_i h0
      have hlt : n / 10 < fuel := by
        have : n / 10 < n := Nat.div_lt_self (by
          rcases Nat.eq_zero_or_pos n with h' | h'
          · subst h'; simp at h0
          · exact h') (by decide)
        omega
      rw [ih (n / 10) _ hlt]
      simp only [List.foldl_cons]
      rw [digitChar_value _ (Nat.mod_lt _ (by decide)), Nat.div_add_mod]

theorem toString_nat_injective (n m : Nat) (h : toString n = toString m) : n = m := by
  have h' : Nat.toDigits 10 n = Nat.toDigits 10 m := by
    have : (Nat.toDigits 10 n).asString = (Nat.toDigits 10 m).asString := h
    exact congrArg String.data this
  have hn := toDigitsCore_value (n + 1) n [] (Nat.lt_succ_self n)
  have hm := toDigitsCore_value (m + 1) m [] (Nat.lt_succ_self m)
  simp only [List.foldl_nil] at hn hm
  have e : (Nat.toDigits 10 n).foldl (fun a c => 10 * a + (c.toNat - 48)) 0 =
      (Nat.toDigits 10 m).foldl (fun a c => 10 * a + (c.toNat - 48)) 0 := by rw [h']
  unfold Nat.toDigits at e
  rw [hn, hm] at e
  exact e

/-- Two register names are equal only for equal register numbers. -/
theorem get_num_reg_injective (c c' : CodegenContext) (n m : Nat)
    (h : c.get_num_reg n = c'.get_num_reg m) : n = m := by
  apply toString_nat_injective
  have h' : "tmp__" ++ toString n = "tmp__" ++ toString m := h
  have hd := congrArg String.data h'
  simp only [String.data_append] at hd
  exact String.ext (List.append_cancel_left hd)

/-! ## Blocks -/

/-- The loop of a block over `l1 ++ l2` is the loop over `l1` followed by the loop over
`l2`, started with the `used_reg` left by the first. -/
theorem Block_gen_rvalue_append (uninit : CodegenContext → Int) :
    ∀ (l1 l2 : List ASTNode) (ctx : CodegenContext) (t : String),
      Block_gen_rvalue uninit (l1 ++ l2) ctx t =
        Block_gen_rvalue uninit l2 (Block_gen_rvalue uninit l1 ctx t)
          (Block_used_reg uninit l1 ctx t)
  | [], l2, ctx, t => by simp [Block_gen_rvalue, Block_used_reg]
  | s :: rest, l2, ctx, t => by
    simp only [List.cons_append, Block_gen_rvalue, Block_used_reg]
    exact Block_gen_rvalue_append uninit rest l2 _ _

/-! ## Blocks of literals -/

theorem block_literal_code_length : ∀ (l : List ASTNode) (c : Nat),
    (block_literal_code l c).length = l.length
  | [], _ => rfl
  | _ :: rest, c => by simp [block_literal_code, block_literal_code_length rest (c + 1)]

theorem block_literal_code_get : ∀ (l : List ASTNode) (c i : Nat) (s : ASTNode),
    l[i]? = some s →
      (block_literal_code l c)[i]? = some (literal_instruction ("tmp__" ++ toString (c + i)) s)
  | [], _, _, _, h => by simp at h
  | x :: rest, c, 0, s, h => by
    simp at h
    simp [block_literal_code, h]
  | x :: rest, c, i + 1, s, h => by
    simp at h
    have := block_literal_code_get rest (c + 1) i s h
    simp only [block_literal_code, List.getElem?_cons_succ]
    rw [this, show c + 1 + i = c + (i + 1) by omega]

theorem gen_rvalue_literal (uninit : CodegenContext → Int) (s : ASTNode)
    (hs : isLiteral s = true) (ctx : CodegenContext) (T : String) :
    (gen_rvalue uninit s ctx T).code = ctx.code ++ [literal_instruction T s] ∧
    (gen_rvalue uninit s ctx T).reg = ctx.reg := by
  cases s <;> simp [isLiteral] at hs <;> exact ⟨rfl, rfl⟩

theorem Block_literals (uninit : CodegenContext → Int) :
    ∀ (l : List ASTNode), (∀ s ∈ l, isLiteral s = true) → ∀ (ctx : CodegenContext),
      (Block_gen_rvalue uninit l ctx (ctx.get_num_reg ctx.reg)).code =
          ctx.code ++ block_literal_code l ctx.reg ∧
      (Block_gen_rvalue uninit l ctx (ctx.get_num_reg ctx.reg)).reg = ctx.reg + l.length
  | [], _, ctx => by simp [Block_gen_rvalue, block_literal_code]
  | s :: rest, hl, ctx => by
    have hs := gen_rvalue_literal uninit s (hl s (List.mem_cons_self _ _)) ctx
      (ctx.get_num_reg ctx.reg)
    have ih := Block_literals uninit rest (fun x hx => hl x (List.mem_cons_of_mem _ hx))
      (gen_rvalue uninit s ctx (ctx.get_num_reg ctx.reg)).alloc_reg.2
    simp only [Block_gen_rvalue]
    have hname : (gen_rvalue uninit s ctx (ctx.get_num_reg ctx.reg)).alloc_reg.1 =
        (gen_rvalue uninit s ctx (ctx.get_num_reg ctx.reg)).alloc_reg.2.get_num_reg
          (gen_rvalue uninit s ctx (ctx.get_num_reg ctx.reg)).alloc_reg.2.reg := rfl
    rw [hname]
    refine ⟨?_, ?_⟩
    · rw [ih.1, alloc_reg_code, alloc_reg_reg, hs.1, hs.2]
      simp [block_literal_code, CodegenContext.get_num_reg]
    · rw [ih.2, alloc_reg_reg, hs.2]
      simp only [List.length_cons]
      omega

theorem register_names_nodup (f : CodegenContext) (c k : Nat) :
    ((List.range' c k).map f.get_num_reg).Nodup :=
  (List.nodup_range' c k).map (fun _ _ h => get_num_reg_injective f f _ _ h)

/-! ## The registers allocated by a pass -/

theorem range_names_glue (a b c : Nat) (hab : a ≤ b) (hbc : b ≤ c) :
    (List.range' (a + 1) (b - a)).map (fun k => "tmp__" ++ toString k) ++
        (List.range' (b + 1) (c - b)).map (fun k => "tmp__" ++ toString k) =
      (List.range' (a + 1) (c - a)).map (fun k => "tmp__" ++ toString k) := by
  rw [← List.map_append]
  congr 1
  have h1 : b + 1 = a + 1 + (b - a) := by omega
  have h2 : c - a = (b - a) + (c - b) := by omega
  rw [h1, h2, List.range'_append_1]
  congr 1
  omega

theorem range_names_one (a : Nat) :
    (List.range' (a + 1) (a + 1 - a)).map (fun k => "tmp__" ++ toString k) =
      ["tmp__" ++ toString (a + 1)] := by
  have : a + 1 - a = 1 := by omega
  rw [this]
  rfl

mutual
theorem gen_allocs_range (uninit : CodegenContext → Int) :
    ∀ (n : ASTNode) (ctx : CodegenContext) (t : String),
      gen_allocs uninit n ctx t =
        (List.range' (ctx.reg + 1) ((gen_rvalue uninit n ctx t).reg - ctx.reg)).map
          (fun k => "tmp__" ++ toString k)
  | .IntConst _, ctx, t => by simp [gen_allocs, gen_rvalue]
  | .StrConst _, ctx, t => by simp [gen_allocs, gen_rvalue]
  | .Load _, ctx, t => by simp [gen_allocs, gen_rvalue]
  | .Assign _ r, ctx, t => by
    simp only [gen_allocs, gen_rvalue]
    exact gen_allocs_range uninit r ctx t
  | .AssignDeclare _ r _, ctx, t => by
    simp only [gen_allocs, gen_rvalue]
    exact gen_allocs_range uninit r ctx t
  | .Call r m a, ctx, t => by
    have h1 := gen_allocs_range uninit r ctx t
    have h2 := Actuals_allocs_range uninit a (gen_rvalue uninit r ctx t) t
    have m1 := (gen_rvalue_extends uninit r ctx t).1
    have m2 := (Actuals_extends uninit a (gen_rvalue uninit r ctx t) t).1
    rw [gen_rvalue_Call, Call_finish_reg]
    simp only [gen_allocs]
    rw [h1, h2, range_names_glue _ _ _ m1 m2]
    have h3 : [(Actuals_gen_rvalue uninit a (gen_rvalue uninit r ctx t) t).alloc_reg.1] =
        (List.range' ((Actuals_gen_rvalue uninit a (gen_rvalue uninit r ctx t) t).reg + 1)
          ((Actuals_gen_rvalue uninit a (gen_rvalue uninit r ctx t) t).reg + 1 -
            (Actuals_gen_rvalue uninit a (gen_rvalue uninit r ctx t) t).reg)).map
          (fun k => "tmp__" ++ toString k) := (range_names_one _).symm
    rw [h3, range_names_glue _ _ _ (le_trans m1 m2) (Nat.le_succ _)]
  | .Actuals l, ctx, t => by
    simp only [gen_allocs, gen_rvalue]
    exact Actuals_allocs_range uninit l ctx t
  | .Block l, ctx, t => by
    simp only [gen_allocs, gen_rvalue]
    exact Block_allocs_range uninit l ctx t
  | .Program _ l, ctx, t => by
    simp only [gen_allocs, gen_rvalue]
    exact Block_allocs_range uninit l ctx t
theorem Block_allocs_range (uninit : CodegenContext → Int) :
    ∀ (l : List ASTNode) (ctx : CodegenContext) (t : String),
      Block_allocs uninit l ctx t =
        (List.range' (ctx.reg + 1) ((Block_gen_rvalue uninit l ctx t).reg - ctx.reg)).map
          (fun k => "tmp__" ++ toString k)
  | [], ctx, t => by simp [Block_allocs, Block_gen_rvalue]
  | s :: rest, ctx, t => by
    have h1 := gen_allocs_range uninit s ctx t
    have h2 := Block_allocs_range uninit rest (gen_rvalue uninit s ctx t).alloc_reg.2
      (gen_rvalue uninit s ctx t).alloc_reg.1
    have m1 := (gen_rvalue_extends uninit s ctx t).1
    have m2 := (Block_extends uninit rest (gen_rvalue uninit s ctx t).alloc_reg.2
      (gen_rvalue uninit s ctx t).alloc_reg.1).1
    simp only [Block_allocs, Block_gen_rvalue]
    rw [h1, h2]
    have h3 : [(gen_rvalue uninit s ctx t).alloc_reg.1] =
        (List.range' ((gen_rvalue uninit s ctx t).reg + 1)
          ((gen_rvalue uninit s ctx t).reg + 1 - (gen_rvalue uninit s ctx t).reg)).map
          (fun k => "tmp__" ++ toString k) := (range_names_one _).symm
    rw [h3, range_names_glue _ _ _ m1 (Nat.le_succ _)]
    exact range_names_glue _ _ _ (le_trans m1 (Nat.le_succ _)) m2
theorem Actuals_allocs_range (uninit : CodegenContext → Int) :
    ∀ (l : List ASTNode) (ctx : CodegenContext) (t : String),
      Actuals_allocs uninit l ctx t =
        (List.range' (ctx.reg + 1) ((Actuals_gen_rvalue uninit l ctx t).reg - ctx.reg)).map
          (fun k => "tmp__" ++ toString k)
  | [], ctx, t => by simp [Actuals_allocs, Actuals_gen_rvalue]
  | s :: rest, ctx, t => by
    have h1 := gen_allocs_range uninit s ctx.alloc_reg.2 ctx.alloc_reg.1
    have h2 := Actuals_allocs_range uninit rest
      (gen_rvalue uninit s ctx.alloc_reg.2 ctx.alloc_reg.1) t
    have m1 : ctx.reg + 1 ≤ (gen_rvalue uninit s ctx.alloc_reg.2 ctx.alloc_reg.1).reg :=
      (gen_rvalue_extends uninit s ctx.alloc_reg.2 ctx.alloc_reg.1).1
    have m2 := (Actuals_extends uninit rest
      (gen_rvalue uninit s ctx.alloc_reg.2 ctx.alloc_reg.1) t).1
    simp only [Actuals_allocs, Actuals_gen_rvalue]
    rw [h1, h2]
    have h3 : [ctx.alloc_reg.1] =
        (List.range' (ctx.reg + 1) (ctx.reg + 1 - ctx.reg)).map
          (fun k => "tmp__" ++ toString k) := (range_names_one _).symm
    rw [h3]
    have e : ctx.alloc_reg.2.reg = ctx.reg + 1 := rfl
    rw [e, range_names_glue _ _ _ (Nat.le_succ _) m1]
    exact range_names_glue _ _ _ (le_trans (Nat.le_succ _) m1) m2
end

/-! ## Targets during a pass -/

mutual
theorem gen_visits_current (uninit : CodegenContext → Int) :
    ∀ (n : ASTNode) (ctx : CodegenContext),
      ∀ p ∈ gen_visits uninit n ctx (ctx.get_num_reg ctx.reg), p.1 = ctx.get_num_reg p.2
  | .IntConst _, ctx => by
    intro p hp
    simp only [gen_visits, List.mem_singleton] at hp
    subst hp
    rfl
  | .StrConst _, ctx => by
    intro p hp
    simp only [gen_visits, List.mem_singleton] at hp
    subst hp
    rfl
  | .Load _, ctx => by
    intro p hp
    simp [gen_visits] at hp
  | .Assign _ r, ctx => by
    simp only [gen_visits]
    exact gen_visits_current uninit r ctx
  | .AssignDeclare _ r _, ctx => by
    simp only [gen_visits]
    exact gen_visits_current uninit r ctx
  | .Call r _ a, ctx => by
    intro p hp
    simp only [gen_visits, List.mem_append, List.mem_singleton] at hp
    rcases hp with (hp | hp) | hp
    · subst hp
      rfl
    · exact gen_visits_current uninit r ctx p hp
    · exact Actuals_visits_current uninit a
        (gen_rvalue uninit r ctx (ctx.get_num_reg ctx.reg)) (ctx.get_num_reg ctx.reg) p hp
  | .Actuals l, ctx => by
    simp only [gen_visits]
    exact Actuals_visits_current uninit l ctx (ctx.get_num_reg ctx.reg)
  | .Block l, ctx => by
    simp only [gen_visits]
    exact Block_visits_current uninit l ctx
  | .Program _ l, ctx => by
    simp only [gen_visits]
    exact Block_visits_current uninit l ctx
theorem Block_visits_current (uninit : CodegenContext → Int) :
    ∀ (l : List ASTNode) (ctx : CodegenContext),
      ∀ p ∈ Block_visits uninit l ctx (ctx.get_num_reg ctx.reg), p.1 = ctx.get_num_reg p.2
  | [], ctx => by
    intro p hp
    simp [Block_visits] at hp
  | s :: rest, ctx => by
    intro p hp
    simp only [Block_visits, List.mem_append] at hp
    rcases hp with hp | hp
    · exact gen_visits_current uninit s ctx p hp
    · exact Block_visits_current uninit rest
        (gen_rvalue uninit s ctx (ctx.get_num_reg ctx.reg)).alloc_reg.2 p hp
theorem Actuals_visits_current (uninit : CodegenContext → Int) :
    ∀ (l : List ASTNode) (ctx : CodegenContext) (t : String),
      ∀ p ∈ Actuals_visits uninit l ctx t, p.1 = ctx.get_num_reg p.2
  | [], ctx, t => by
    intro p hp
    simp [Actuals_visits] at hp
  | s :: rest, ctx, t => by
    intro p hp
    simp only [Actuals_visits, List.mem_append] at hp
    rcases hp with hp | hp
    · exact gen_visits_current uninit s ctx.alloc_reg.2 p hp
    · exact Actuals_visits_current uninit rest
        (gen_rvalue uninit s ctx.alloc_reg.2 ctx.alloc_reg.1) t p hp
end

/-- The argument loop only appends to the `args` it starts from. -/
theorem args_loop_append (ctx : CodegenContext) (start_from end_ : Nat) (init : String) :
    args_loop ctx start_from end_ init = init ++ args_loop ctx start_from end_ "" := by
  have hstep : ∀ (a : String) (i : Nat),
      append_arg ctx end_ a i = a ++ append_arg ctx end_ "" i := by
    intro a i
    simp only [append_arg]
    split <;> simp [String.append_assoc]
  have hfold : ∀ (l : List Nat) (a : String),
      l.foldl (append_arg ctx end_) a = a ++ l.foldl (append_arg ctx end_) "" := by
    intro l
    induction l with
    | nil => intro a; simp
    | cons x rest ih =>
      intro a
      simp only [List.foldl_cons]
      rw [ih (append_arg ctx end_ a x), ih (append_arg ctx end_ "" x), hstep a x,
        String.append_assoc]
  exact hfold _ init

/-- The instruction a call appends, with the receiver register spelled out. -/
theorem Call_code (uninit : CodegenContext → Int) (r : ASTNode) (m : Ident)
    (a : List ASTNode) (ctx : CodegenContext) (t : String) :
    (gen_rvalue uninit (.Call r m a) ctx t).code =
      (Actuals_gen_rvalue uninit a (gen_rvalue uninit r ctx t) t).code ++
        [ctx.get_num_reg (gen_rvalue uninit (.Call r m a) ctx t).reg ++ "= (obj_Obj) ("
          ++ (receiver_dispatch
                ((gen_rvalue uninit r ctx t).get_reg_type (gen_rvalue uninit r ctx t).reg)
                m.text_ (ctx.get_num_reg (gen_rvalue uninit r ctx t).reg)).1
          ++ ")->clazz->" ++ m.text_ ++ "("
          ++ args_loop (Actuals_gen_rvalue uninit a (gen_rvalue uninit r ctx t) t)
              ((gen_rvalue uninit r ctx t).reg + 1)
              (Actuals_gen_rvalue uninit a (gen_rvalue uninit r ctx t) t).reg
              (if (gen_rvalue uninit r ctx t).reg ≠
                  (Actuals_gen_rvalue uninit a (gen_rvalue uninit r ctx t) t).reg then
                (receiver_dispatch
                  ((gen_rvalue uninit r ctx t).get_reg_type (gen_rvalue uninit r ctx t).reg)
                  m.text_ (ctx.get_num_reg (gen_rvalue uninit r ctx t).reg)).1 ++ ", "
               else
                (receiver_dispatch
                  ((gen_rvalue uninit r ctx t).get_reg_type (gen_rvalue uninit r ctx t).reg)
                  m.text_ (ctx.get_num_reg (gen_rvalue uninit r ctx t).reg)).1)
          ++ ");"] := by
  have hc := Call_finish_code uninit m.text_
    ((gen_rvalue uninit r ctx t).get_num_reg (gen_rvalue uninit r ctx t).reg)
    ((gen_rvalue uninit r ctx t).reg + 1)
    (Actuals_gen_rvalue uninit a (gen_rvalue uninit r ctx t) t)
  rw [← gen_rvalue_Call, Nat.add_sub_cancel, receiver_tag_after_actuals] at hc
  rw [hc, gen_rvalue_Call, Call_finish_reg]
  rfl

/-! ## Tree dump -/

theorem json_indent_eq (out : String) (ctx : AST_print_context) :
    json_indent out ctx = out ++ indent_text ctx.indent_ := by
  simp only [json_indent, indent_text]
  split <;> simp [String.append_assoc]

theorem json_head_eq (k out : String) (ctx : AST_print_context) :
    json_head k out ctx = (out ++ head_text ctx.indent_ k, ⟨ctx.indent_ + 1⟩) := by
  simp only [json_head, json_indent_eq, head_text, AST_print_context.indent,
    String.append_assoc]

theorem json_close_eq (out : String) (d : Int) :
    json_close out ⟨d + 1⟩ = (out ++ "\x7d", ⟨d⟩) := by
  simp [json_close, AST_print_context.dedent]

theorem json_child_eq (field : String)
    (child : String → AST_print_context → String × AST_print_context) (txt : String)
    (out : String) (ctx : AST_print_context) (sep : Char)
    (h : ∀ o, child o ctx = (o ++ txt, ctx)) :
    json_child field child out ctx sep = (out ++ field_text ctx.indent_ field txt sep, ctx) := by
  simp only [json_child, json_indent_eq, h, field_text, String.append_assoc]

/-- The stateful dump writes exactly the text of the dump with explicit depth and
restores the depth, provided the nodes dumped by the missing header do. -/
theorem json_eq_dump_at (sep0 : Char) (other : Nat → Int → String × Int)
    (hbal : ∀ key d, (other key d).2 = d) :
    ∀ (n : TreeNode) (out : String) (ctx : AST_print_context),
      json sep0 other n out ctx = (out ++ dump_at sep0 other n ctx.indent_, ctx) := by
  intro n
  induction n with
  | Other key =>
    intro out ctx
    simp [json, dump_at, hbal]
  | Stub name_ =>
    intro out ctx
    simp only [json, json_head_eq, json_indent_eq, json_close_eq, dump_at, String.append_assoc]
  | Ident text_ =>
    intro out ctx
    simp only [json, json_head_eq, json_close_eq, dump_at, String.append_assoc]
  | IntConst value_ =>
    intro out ctx
    simp only [json, json_head_eq, json_close_eq, dump_at, String.append_assoc]
  | StrConst value_ =>
    intro out ctx
    simp only [json, json_head_eq, json_close_eq, dump_at, String.append_assoc]
  | Return a iha | Load a iha | Not a iha =>
    intro out ctx
    simp only [json, json_head_eq, dump_at]
    rw [json_child_eq _ _ _ _ _ _ (fun o => iha o ⟨ctx.indent_ + 1⟩)]
    simp only [json_close_eq, String.append_assoc]
  | Program a b iha ihb | Formal a b iha ihb | Assign a b iha ihb | While a b iha ihb
  | Typecase a b iha ihb | Construct a b iha ihb | Dot a b iha ihb =>
    intro out ctx
    simp only [json, json_head_eq, dump_at]
    rw [json_child_eq _ _ _ _ _ _ (fun o => iha o ⟨ctx.indent_ + 1⟩),
      json_child_eq _ _ _ _ _ _ (fun o => ihb o ⟨ctx.indent_ + 1⟩)]
    simp only [json_close_eq, String.append_assoc]
  | BinOp opsym a b iha ihb =>
    intro out ctx
    simp only [json, json_head_eq, dump_at]
    rw [json_child_eq _ _ _ _ _ _ (fun o => iha o ⟨ctx.indent_ + 1⟩),
      json_child_eq _ _ _ _ _ _ (fun o => ihb o ⟨ctx.indent_ + 1⟩)]
    simp only [json_close_eq, String.append_assoc]
  | AssignDeclare a b c iha ihb ihc | If a b c iha ihb ihc
  | Type_Alternative a b c iha ihb ihc | Call a b c iha ihb ihc =>
    intro out ctx
    simp only [json, json_head_eq, dump_at]
    rw [json_child_eq _ _ _ _ _ _ (fun o => iha o ⟨ctx.indent_ + 1⟩),
      json_child_eq _ _ _ _ _ _ (fun o => ihb o ⟨ctx.indent_ + 1⟩),
      json_child_eq _ _ _ _ _ _ (fun o => ihc o ⟨ctx.indent_ + 1⟩)]
    simp only [json_close_eq, String.append_assoc]
  | Method a b c e iha ihb ihc ihe | Class a b c e iha ihb ihc ihe =>
    intro out ctx
    simp only [json, json_head_eq, dump_at]
    rw [json_child_eq _ _ _ _ _ _ (fun o => iha o ⟨ctx.indent_ + 1⟩),
      json_child_eq _ _ _ _ _ _ (fun o => ihb o ⟨ctx.indent_ + 1⟩),
      json_child_eq _ _ _ _ _ _ (fun o => ihc o ⟨ctx.indent_ + 1⟩),
      json_child_eq _ _ _ _ _ _ (fun o => ihe o ⟨ctx.indent_ + 1⟩)]
    simp only [json_close_eq, String.append_assoc]

/-! ## Claims C11-C20 -/

/-- C11 (counterexample): the integer literal `5` generated with target `tmp__0` in a
context whose current register is 1 emits `tmp__0=int_literal(5);`, yet register 0 stays
untagged (OBJECT): the tag INT is recorded on register 1. -/
theorem C11_target_not_current_counterexample :
    (gen_rvalue (fun _ => 0) (.IntConst 5) ⟨[], 1, []⟩ "tmp__0").code =
      ["tmp__0=int_literal(5);"] ∧
    (gen_rvalue (fun _ => 0) (.IntConst 5) ⟨[], 1, []⟩ "tmp__0").get_reg_type 0 = 0 ∧
    (gen_rvalue (fun _ => 0) (.IntConst 5) ⟨[], 1, []⟩ "tmp__0").get_reg_type 0 ≠ 1 ∧
    (gen_rvalue (fun _ => 0) (.IntConst 5) ⟨[], 1, []⟩ "tmp__0").get_reg_type 1 = 1 := by
  decide

/-- C11 (amended): for every literal, context and target register, after `gen_rvalue`
the context's current register carries the tag of the literal's kind (INT = 1 for an
integer literal, STRING = 2 for a string literal); when the target is the name of the
current register, that register is the one the emitted instruction assigns. -/
theorem C11_literal_tags_current_register (uninit : CodegenContext → Int) (v : Int)
    (s : String) (ctx : CodegenContext) (T : String) :
    (gen_rvalue uninit (.IntConst v) ctx T).get_reg_type ctx.reg = 1 ∧
    (gen_rvalue uninit (.StrConst s) ctx T).get_reg_type ctx.reg = 2 ∧
    (gen_rvalue uninit (.IntConst v) ctx T).reg = ctx.reg ∧
    (gen_rvalue uninit (.StrConst s) ctx T).reg = ctx.reg ∧
    (gen_rvalue uninit (.IntConst v) ctx (ctx.get_num_reg ctx.reg)).code =
      ctx.code ++ [ctx.get_num_reg ctx.reg ++ "=int_literal(" ++ toString v ++ ");"] ∧
    (gen_rvalue uninit (.StrConst s) ctx (ctx.get_num_reg ctx.reg)).code =
      ctx.code ++ [ctx.get_num_reg ctx.reg ++ "=str_literal(" ++ s ++ ");"] := by
  refine ⟨?_, ?_, rfl, rfl, rfl, rfl⟩
  · exact get_reg_type_change_same ctx ctx.reg 1
  · exact get_reg_type_change_same ctx ctx.reg 2

/-- C12 (counterexample): the block of the single statement `5`, generated with target
`tmp__0` from counter 0, emits `tmp__0=int_literal(5);` and tags register 0, but the
current register on return is 1; the block of the single statement `3 + 4` returns with
current register 3 while the call's result register is 2. -/
theorem C12_block_final_register_counterexample :
    (gen_rvalue (fun _ => 0) (.Block [.IntConst 5]) ⟨[], 0, []⟩ "tmp__0").code =
      ["tmp__0=int_literal(5);"] ∧
    (gen_rvalue (fun _ => 0) (.Block [.IntConst 5]) ⟨[], 0, []⟩ "tmp__0").reg = 1 ∧
    (gen_rvalue (fun _ => 0) (.Block [.IntConst 5]) ⟨[], 0, []⟩ "tmp__0").reg ≠ 0 ∧
    (gen_rvalue (fun _ => 0) (Call.binop "PLUS" (.IntConst 3) (.IntConst 4)) ⟨[], 0, []⟩
      "tmp__0").reg = 2 ∧
    (gen_rvalue (fun _ => 0) (.Block [Call.binop "PLUS" (.IntConst 3) (.IntConst 4)])
      ⟨[], 0, []⟩ "tmp__0").reg = 3 := by
  decide

/-- C12 (amended): for every non-empty block and every context, the current register
after `Block::gen_rvalue` is the fresh register allocated after the last statement: its
number is one more than the counter the last statement leaves (for a literal last
statement the counter it was generated at, for a call its result register), and
instructions and tags are those left by the last statement. -/
theorem C12_block_final_register (uninit : CodegenContext → Int) (init : List ASTNode)
    (last : ASTNode) (ctx : CodegenContext) (target_reg : String) :
    gen_rvalue uninit (.Block (init ++ [last])) ctx target_reg =
      (gen_rvalue uninit last (Block_gen_rvalue uninit init ctx target_reg)
        (Block_used_reg uninit init ctx target_reg)).alloc_reg.2 ∧
    (gen_rvalue uninit (.Block (init ++ [last])) ctx target_reg).reg =
      (gen_rvalue uninit last (Block_gen_rvalue uninit init ctx target_reg)
        (Block_used_reg uninit init ctx target_reg)).reg + 1 ∧
    (∀ (v : Int) (c : CodegenContext) (T : String),
      (gen_rvalue uninit (.IntConst v) c T).reg = c.reg) ∧
    (∀ (s : String) (c : CodegenContext) (T : String),
      (gen_rvalue uninit (.StrConst s) c T).reg = c.reg) := by
  have h : gen_rvalue uninit (.Block (init ++ [last])) ctx target_reg =
      (gen_rvalue uninit last (Block_gen_rvalue uninit init ctx target_reg)
        (Block_used_reg uninit init ctx target_reg)).alloc_reg.2 := by
    simp only [gen_rvalue]
    rw [Block_gen_rvalue_append]
    simp only [Block_gen_rvalue]
  exact ⟨h, by rw [h]; rfl, fun _ _ _ => rfl, fun _ _ _ => rfl⟩

/-- C13: a block of `k` literal statements generated with target `tmp__c` in a context
whose current register is `c` appends exactly `k` instructions in source order, the
statement at position `i` (from 0) contributing its literal instruction with target
`tmp__{c+i}`; the counter ends at `c+k` and the `k` target registers are pairwise
distinct. -/
theorem C13_block_of_literals (uninit : CodegenContext → Int) (l : List ASTNode)
    (hl : ∀ s ∈ l, isLiteral s = true) (ctx : CodegenContext) :
    (gen_rvalue uninit (.Block l) ctx (ctx.get_num_reg ctx.reg)).code =
        ctx.code ++ block_literal_code l ctx.reg ∧
    (block_literal_code l ctx.reg).length = l.length ∧
    (∀ (i : Nat) (s : ASTNode), l[i]? = some s →
      (block_literal_code l ctx.reg)[i]? =
        some (literal_instruction (ctx.get_num_reg (ctx.reg + i)) s)) ∧
    ((List.range' ctx.reg l.length).map ctx.get_num_reg).Nodup ∧
    (gen_rvalue uninit (.Block l) ctx (ctx.get_num_reg ctx.reg)).reg = ctx.reg + l.length := by
  have h := Block_literals uninit l hl ctx
  have hb : gen_rvalue uninit (.Block l) ctx (ctx.get_num_reg ctx.reg) =
      Block_gen_rvalue uninit l ctx (ctx.get_num_reg ctx.reg) := by simp only [gen_rvalue]
  rw [hb]
  exact ⟨h.1, block_literal_code_length l ctx.reg,
    fun i s hi => block_literal_code_get l ctx.reg i s hi, register_names_nodup ctx _ _, h.2⟩

/-- Witness of C13: the block `5; "a"; 7` generated with target `tmp__0` from counter 0
emits three instructions assigning `tmp__0`, `tmp__1`, `tmp__2`. -/
theorem C13_block_of_literals_witness :
    (gen_rvalue (fun _ => 0) (.Block [.IntConst 5, .StrConst "a", .IntConst 7]) ⟨[], 0, []⟩
        "tmp__0").code =
      ["tmp__0=int_literal(5);", "tmp__1=str_literal(a);", "tmp__2=int_literal(7);"] :=
  (C13_block_of_literals (fun _ => 0) [.IntConst 5, .StrConst "a", .IntConst 7]
    (by decide) ⟨[], 0, []⟩).1

/-- C14: during `gen_rvalue` on any tree the register counter does not decrease, and
the identifiers returned by the successive `alloc_reg` calls of the pass are the names
of the registers `c+1, c+2, ...` up to the final counter, in that order (`c` the counter
before the pass): they are pairwise distinct and differ from the name of every register
numbered `c` or below, i.e. of every register allocated before the pass. -/
theorem C14_register_uniqueness (uninit : CodegenContext → Int) (n : ASTNode)
    (ctx : CodegenContext) (target_reg : String) :
    ctx.reg ≤ (gen_rvalue uninit n ctx target_reg).reg ∧
    gen_allocs uninit n ctx target_reg =
      (List.range' (ctx.reg + 1) ((gen_rvalue uninit n ctx target_reg).reg - ctx.reg)).map
        ctx.get_num_reg ∧
    (gen_allocs uninit n ctx target_reg).Nodup ∧
    (∀ r, r ≤ ctx.reg → ctx.get_num_reg r ∉ gen_allocs uninit n ctx target_reg) := by
  have h : gen_allocs uninit n ctx target_reg =
      (List.range' (ctx.reg + 1) ((gen_rvalue uninit n ctx target_reg).reg - ctx.reg)).map
        ctx.get_num_reg := gen_allocs_range uninit n ctx target_reg
  refine ⟨(gen_rvalue_extends uninit n ctx target_reg).1, h, ?_, ?_⟩
  · rw [h]
    exact register_names_nodup ctx _ _
  · intro r hr hmem
    rw [h, List.mem_map] at hmem
    obtain ⟨k, hk, hkr⟩ := hmem
    have := get_num_reg_injective ctx ctx k r hkr
    rw [List.mem_range'_1] at hk
    omega

/-- Witness of C14 at `1 + (2 + 3)`: generated from counter 0 the pass allocates
`tmp__1`, `tmp__2`, `tmp__3`, `tmp__4`, none of which is `tmp__0`. -/
theorem C14_register_uniqueness_witness :
    gen_allocs (fun _ => 0)
        (Call.binop "PLUS" (.IntConst 1) (Call.binop "PLUS" (.IntConst 2) (.IntConst 3)))
        ⟨[], 0, []⟩ "tmp__0" = ["tmp__1", "tmp__2", "tmp__3", "tmp__4"] ∧
    "tmp__0" ∉ gen_allocs (fun _ => 0)
        (Call.binop "PLUS" (.IntConst 1) (Call.binop "PLUS" (.IntConst 2) (.IntConst 3)))
        ⟨[], 0, []⟩ "tmp__0" :=
  ⟨by decide,
   (C14_register_uniqueness (fun _ => 0)
      (Call.binop "PLUS" (.IntConst 1) (Call.binop "PLUS" (.IntConst 2) (.IntConst 3)))
      ⟨[], 0, []⟩ "tmp__0").2.2.2 0 (by decide)⟩

/-- C15 (the code at `1.PRINT()`): the receiver's register carries tag INT and the INT
branch has no entry for `PRINT`, so `static_for_return` is never assigned and the tag
recorded on the result register 1 is the indeterminate value `v` of that variable,
whatever it is; nothing confines it to the four tags. -/
theorem C15_table_miss_records_indeterminate_tag (v : Int) :
    (receiver_dispatch 1 "PRINT" "tmp__0").2 = none ∧
    gen_rvalue (fun _ => v) (.Call (.IntConst 1) ⟨"PRINT"⟩ []) ⟨[], 0, []⟩ "tmp__0" =
      ⟨["tmp__0=int_literal(1);",
        "tmp__1= (obj_Obj) ((obj_Int) tmp__0)->clazz->PRINT((obj_Int) tmp__0);"],
       1, [(1, v), (0, 1)]⟩ ∧
    (gen_rvalue (fun _ => v) (.Call (.IntConst 1) ⟨"PRINT"⟩ []) ⟨[], 0, []⟩
      "tmp__0").get_reg_type 1 = v := by
  simp [gen_rvalue, Actuals_gen_rvalue, Call_finish,
    receiver_dispatch, args_loop, append_arg, arg_cast, CodegenContext.get_reg_type, tag_lookup,
    CodegenContext.emit, CodegenContext.change_reg_type, CodegenContext.alloc_reg,
    CodegenContext.get_num_reg, CodegenContext.get_current_reg_number, Ident.get_text,
    List.range']
  decide

/-- C16: `Assign` and `AssignDeclare` yield exactly the context of their right-hand
expression, whatever `lexpr_` and `static_type_` are, and `Program` yields exactly the
context of its statement block, whatever `classes_` is. -/
theorem C16_delegating_nodes (uninit : CodegenContext → Int) (lexpr_ static_type_ : Ident)
    (rexpr_ : ASTNode) (classes_ statements_ : List ASTNode) (ctx : CodegenContext)
    (target_reg : String) :
    gen_rvalue uninit (.Assign lexpr_ rexpr_) ctx target_reg =
      gen_rvalue uninit rexpr_ ctx target_reg ∧
    gen_rvalue uninit (.AssignDeclare lexpr_ rexpr_ static_type_) ctx target_reg =
      gen_rvalue uninit rexpr_ ctx target_reg ∧
    gen_rvalue uninit (.Program classes_ statements_) ctx target_reg =
      gen_rvalue uninit (.Block statements_) ctx target_reg := by
  refine ⟨?_, ?_, ?_⟩ <;> simp only [gen_rvalue]

/-- C17: `Load::gen_rvalue` returns the context it was given: no instruction, no
register, no tag. -/
theorem C17_load_is_noop (uninit : CodegenContext → Int) (loc_ : Ident)
    (ctx : CodegenContext) (target_reg : String) :
    gen_rvalue uninit (.Load loc_) ctx target_reg = ctx := by
  simp only [gen_rvalue]

/-- C18 (the code at `1.PRINT()`, generated twice from the same context): in both runs
the receiver's register carries tag INT, and the tag recorded on the result register is
in each run the indeterminate value of `static_for_return` in that run, `v` in the
first and `w` in the second; the code does nothing to make them equal. -/
theorem C18_table_miss_two_runs (v w : Int) :
    (gen_rvalue (fun _ => v) (.IntConst 1) ⟨[], 0, []⟩ "tmp__0").get_reg_type 0 = 1 ∧
    (gen_rvalue (fun _ => w) (.IntConst 1) ⟨[], 0, []⟩ "tmp__0").get_reg_type 0 = 1 ∧
    (gen_rvalue (fun _ => v) (.Call (.IntConst 1) ⟨"PRINT"⟩ []) ⟨[], 0, []⟩
      "tmp__0").get_reg_type 1 = v ∧
    (gen_rvalue (fun _ => w) (.Call (.IntConst 1) ⟨"PRINT"⟩ []) ⟨[], 0, []⟩
      "tmp__0").get_reg_type 1 = w := by
  simp [gen_rvalue, Actuals_gen_rvalue, Call_finish,
    receiver_dispatch, args_loop, append_arg, arg_cast, CodegenContext.get_reg_type, tag_lookup,
    CodegenContext.emit, CodegenContext.change_reg_type, CodegenContext.alloc_reg,
    CodegenContext.get_num_reg, CodegenContext.get_current_reg_number, Ident.get_text,
    List.range']

/-- C19: for every node variant whose `json` is defined in `ASTNode.cxx`, at every depth
`d`, `json` appends exactly the dump with explicit depth: the node's head at depth `d`,
each child field at depth `d + 1` with the child dumped one level deeper, then the
closing brace; and it returns with the print context at depth `d` again.  Nodes dumped
by the missing header are assumed to restore the depth. -/
theorem C19_json_indentation (sep0 : Char) (other : Nat → Int → String × Int)
    (hbal : ∀ key d, (other key d).2 = d) (n : TreeNode) (out : String)
    (ctx : AST_print_context) :
    json sep0 other n out ctx = (out ++ dump_at sep0 other n ctx.indent_, ctx) ∧
    (json sep0 other n out ctx).2.indent_ = ctx.indent_ ∧
    (match n with
      | .Other _ => True
      | _ => ∃ node_kind rest,
          dump_at sep0 other n ctx.indent_ = head_text ctx.indent_ node_kind ++ rest) := by
  have h := json_eq_dump_at sep0 other hbal n out ctx
  refine ⟨h, by rw [h], ?_⟩
  cases n <;> simp only [dump_at, String.append_assoc] <;>
    first | trivial | exact ⟨_, _, rfl⟩

/-- Witness of C19: the dump of `x = 5` started at depth 2 returns at depth 2. -/
theorem C19_json_indentation_witness :
    (json ',' (fun _ d => ("[]", d)) (.Assign (.Ident "x") (.IntConst 5)) "" ⟨2⟩).2.indent_ = 2 :=
  (C19_json_indentation ',' (fun _ d => ("[]", d)) (fun _ _ => rfl)
    (.Assign (.Ident "x") (.IntConst 5)) "" ⟨2⟩).2.1

/-- In a pass started with the target naming the context's current register, every
literal and every call is visited with its target equal to the name of the then-current
register; a literal's instruction then assigns the register whose tag the literal sets,
and a call's instruction carries the receiver part chosen for the register left
current by the receiver. -/
theorem pass_targets_are_current (uninit : CodegenContext → Int) (n : ASTNode)
    (ctx : CodegenContext) :
    (∀ p ∈ gen_visits uninit n ctx (ctx.get_num_reg ctx.reg), p.1 = ctx.get_num_reg p.2) ∧
    (∀ (v : Int) (c : CodegenContext),
      (gen_rvalue uninit (.IntConst v) c (c.get_num_reg c.reg)).code =
        c.code ++ [c.get_num_reg c.reg ++ "=int_literal(" ++ toString v ++ ");"] ∧
      (gen_rvalue uninit (.IntConst v) c (c.get_num_reg c.reg)).get_reg_type c.reg = 1 ∧
      (gen_rvalue uninit (.IntConst v) c (c.get_num_reg c.reg)).reg = c.reg) ∧
    (∀ (s : String) (c : CodegenContext),
      (gen_rvalue uninit (.StrConst s) c (c.get_num_reg c.reg)).code =
        c.code ++ [c.get_num_reg c.reg ++ "=str_literal(" ++ s ++ ");"] ∧
      (gen_rvalue uninit (.StrConst s) c (c.get_num_reg c.reg)).get_reg_type c.reg = 2 ∧
      (gen_rvalue uninit (.StrConst s) c (c.get_num_reg c.reg)).reg = c.reg) ∧
    (∀ (r : ASTNode) (m : Ident) (a : List ASTNode) (c : CodegenContext) (T : String),
      ∃ more_operands,
        (gen_rvalue uninit (.Call r m a) c T).code =
          (Actuals_gen_rvalue uninit a (gen_rvalue uninit r c T) T).code ++
            [c.get_num_reg (gen_rvalue uninit (.Call r m a) c T).reg ++ "= (obj_Obj) ("
              ++ (receiver_dispatch
                    ((gen_rvalue uninit r c T).get_reg_type (gen_rvalue uninit r c T).reg)
                    m.text_ (c.get_num_reg (gen_rvalue uninit r c T).reg)).1
              ++ ")->clazz->" ++ m.text_ ++ "("
              ++ ((receiver_dispatch
                    ((gen_rvalue uninit r c T).get_reg_type (gen_rvalue uninit r c T).reg)
                    m.text_ (c.get_num_reg (gen_rvalue uninit r c T).reg)).1 ++ more_operands)
              ++ ");"]) := by
  refine ⟨gen_visits_current uninit n ctx, fun v c => ⟨rfl, ?_, rfl⟩,
    fun s c => ⟨rfl, ?_, rfl⟩, fun r m a c T => ?_⟩
  · exact get_reg_type_change_same c c.reg 1
  · exact get_reg_type_change_same c c.reg 2
  · have h := Call_code uninit r m a c T
    rw [args_loop_append] at h
    by_cases hreg : (gen_rvalue uninit r c T).reg ≠
        (Actuals_gen_rvalue uninit a (gen_rvalue uninit r c T) T).reg
    · rw [if_pos hreg, String.append_assoc _ ", "] at h
      exact ⟨_, h⟩
    · rw [if_neg hreg] at h
      exact ⟨_, h⟩

/-! ## Claim C20 -/

/-- C20 (the code at `(1.PRINT()).STRING()`, generated with target `tmp__0` from
counter 0): both calls and the literal are visited with target `tmp__0` at current
register 0, as the invariant says, and the receiver `1.PRINT()` assigns its value to
`tmp__1`, the current register after it.  Yet when the indeterminate value `v` recorded
as the tag of `tmp__1` is none of the four tags, the receiver operand of the outer call
instruction is empty: `tmp__2= (obj_Obj) ()->clazz->STRING();` names no register. -/
theorem C20_receiver_operand_names_no_register (v : Int)
    (h : v ≠ 0 ∧ v ≠ 1 ∧ v ≠ 2 ∧ v ≠ 3) :
    gen_visits (fun _ => v) (.Call (.Call (.IntConst 1) ⟨"PRINT"⟩ []) ⟨"STRING"⟩ [])
        ⟨[], 0, []⟩ "tmp__0" = [("tmp__0", 0), ("tmp__0", 0), ("tmp__0", 0)] ∧
    (gen_rvalue (fun _ => v) (.Call (.IntConst 1) ⟨"PRINT"⟩ []) ⟨[], 0, []⟩ "tmp__0").code =
      ["tmp__0=int_literal(1);",
       "tmp__1= (obj_Obj) ((obj_Int) tmp__0)->clazz->PRINT((obj_Int) tmp__0);"] ∧
    (gen_rvalue (fun _ => v) (.Call (.IntConst 1) ⟨"PRINT"⟩ []) ⟨[], 0, []⟩ "tmp__0").reg = 1 ∧
    (gen_rvalue (fun _ => v) (.Call (.Call (.IntConst 1) ⟨"PRINT"⟩ []) ⟨"STRING"⟩ [])
        ⟨[], 0, []⟩ "tmp__0").code =
      ["tmp__0=int_literal(1);",
       "tmp__1= (obj_Obj) ((obj_Int) tmp__0)->clazz->PRINT((obj_Int) tmp__0);",
       "tmp__2= (obj_Obj) ()->clazz->STRING();"] := by
  obtain ⟨h0, h1, h2, h3⟩ := h
  simp [gen_visits, Actuals_visits, gen_rvalue, Actuals_gen_rvalue, Call_finish,
    receiver_dispatch, args_loop, append_arg, arg_cast, CodegenContext.get_reg_type, tag_lookup,
    CodegenContext.emit, CodegenContext.change_reg_type, CodegenContext.alloc_reg,
    CodegenContext.get_num_reg, CodegenContext.get_current_reg_number, Ident.get_text,
    List.range', h0, h1, h2, h3]
  decide

/-- Witness of C20 with the indeterminate value 7: the outer call of
`(1.PRINT()).STRING()` has no receiver operand although `tmp__1` holds the receiver. -/
theorem C20_receiver_operand_names_no_register_witness :
    (gen_rvalue (fun _ => 7) (.Call (.IntConst 1) ⟨"PRINT"⟩ []) ⟨[], 0, []⟩ "tmp__0").reg = 1 ∧
    (gen_rvalue (fun _ => 7) (.Call (.Call (.IntConst 1) ⟨"PRINT"⟩ []) ⟨"STRING"⟩ [])
        ⟨[], 0, []⟩ "tmp__0").code =
      ["tmp__0=int_literal(1);",
       "tmp__1= (obj_Obj) ((obj_Int) tmp__0)->clazz->PRINT((obj_Int) tmp__0);",
       "tmp__2= (obj_Obj) ()->clazz->STRING();"] :=
  ⟨(C20_receiver_operand_names_no_register 7 (by decide)).2.2.1,
   (C20_receiver_operand_names_no_register 7 (by decide)).2.2.2⟩

/-! ## Calls with simple arguments -/

end Quack
